import Mathlib

/-!
Shallow embedding of the motion-analysis core of the Virtual-AI-Spotter
repository, together with proofs of the specification's claims about it.

Python floats are modelled as exact rationals (ℚ); Python `int(x)` is
truncation toward zero; the per-joint arrays of 17 detector keypoints are
functions `Fin 17 → Joint`.  Mutable objects are modelled by explicit
state passing: each Python method of the form `self.f(args)` becomes a
Lean function `f : State → Args → Result × State` (or `State → State`).
The transcendental helpers `math.sqrt` and `math.degrees(math.acos ·)`
are kept abstract as function parameters (`sqrtQ`, `acosDeg`), since the
claims about the code do not depend on their analytic values beyond the
properties stated as hypotheses where needed.
-/

namespace Spotter

/-! ### config/settings.py -/

/-- `CONFIDENCE_THRESHOLD = 0.5` from config/settings.py. -/
def CONFIDENCE_THRESHOLD : ℚ := 1/2

/-- `HYSTERESIS_TOLERANCE = 5` from config/settings.py. -/
def HYSTERESIS_TOLERANCE : ℚ := 5

/-- `FSM_STABILITY_FRAMES = 2` from config/settings.py. -/
def FSM_STABILITY_FRAMES : ℕ := 2

/-! ### src/core/fsm.py — RepetitionCounter -/

/-- `RepPhase` enum from src/core/fsm.py. -/
inductive RepPhase where
  | start
  | up
  | down
  | unknown
deriving DecidableEq, Repr

/-- The string value of each `RepPhase` member. -/
def RepPhase.value : RepPhase → String
  | .start => "start"
  | .up => "up"
  | .down => "down"
  | .unknown => "unknown"

/-- `RepetitionCounter._parse_phase`: `RepPhase(state_str)`, with the
`ValueError` on an unrecognised string caught and turned into `UNKNOWN`. -/
def parse_phase (state_str : String) : RepPhase :=
  if state_str = "start" then .start
  else if state_str = "up" then .up
  else if state_str = "down" then .down
  else if state_str = "unknown" then .unknown
  else .unknown

/-- The configuration fields of `RepetitionCounter.__init__` that never
change after construction.  `statePfx` models `state_prefix`. -/
structure RCConfig where
  up_threshold : ℚ
  down_threshold : ℚ
  inverted : Bool
  statePfx : String
  stability_frames : ℕ
deriving DecidableEq

/-- The mutable fields of `RepetitionCounter`: `_phase`, `reps` and the
rolling angle buffer `_history` (a `deque(maxlen=5)`, newest sample
first in this list model). -/
structure RCState where
  phase : RepPhase
  reps : ℕ
  history : List ℚ
deriving DecidableEq

/-- `self._history.append(angle)` on the `deque(maxlen=5)`: the newest
sample is at the head and at most 5 samples are kept. -/
def pushHist (h : List ℚ) (angle : ℚ) : List ℚ :=
  (angle :: h).take 5

/-- `RepetitionCounter._is_stable`, applied to the buffer as it stands
after the current sample has been appended: false when fewer than
`stability_frames` samples are buffered, else the predicate must hold on
the last `stability_frames` samples (the first `sf` of the newest-first
list). -/
def isStable (sf : ℕ) (pred : ℚ → Bool) (h : List ℚ) : Bool :=
  decide (sf ≤ h.length) && (h.take sf).all pred

/-- The qualifying DOWN condition of `RepetitionCounter.process` for the
current mode (standard: `angle < down_threshold + HYSTERESIS_TOLERANCE`;
inverted: `angle > down_threshold - HYSTERESIS_TOLERANCE`). -/
def qualDown (c : RCConfig) (x : ℚ) : Bool :=
  if c.inverted then decide (x > c.down_threshold - HYSTERESIS_TOLERANCE)
  else decide (x < c.down_threshold + HYSTERESIS_TOLERANCE)

/-- The qualifying UP condition of `RepetitionCounter.process` for the
current mode (standard: `angle > up_threshold - HYSTERESIS_TOLERANCE`;
inverted: `angle < up_threshold + HYSTERESIS_TOLERANCE`). -/
def qualUp (c : RCConfig) (x : ℚ) : Bool :=
  if c.inverted then decide (x < c.up_threshold + HYSTERESIS_TOLERANCE)
  else decide (x > c.up_threshold - HYSTERESIS_TOLERANCE)

/-- `RepetitionCounter.process(angle)`: append the angle to the rolling
buffer, then run the standard or inverted transition logic; transitions
commit only when the qualifying condition is stable, and a rep is
counted only on a DOWN→UP transition (entering UP from START counts no
rep). -/
def rcProcess (c : RCConfig) (s : RCState) (angle : ℚ) : RCState :=
  let h := pushHist s.history angle
  match c.inverted with
  | false =>
    if angle < c.down_threshold + HYSTERESIS_TOLERANCE then
      if isStable c.stability_frames (fun a => decide (a < c.down_threshold + HYSTERESIS_TOLERANCE)) h then
        { phase := .down, reps := s.reps, history := h }
      else { s with history := h }
    else if angle > c.up_threshold - HYSTERESIS_TOLERANCE then
      if isStable c.stability_frames (fun a => decide (a > c.up_threshold - HYSTERESIS_TOLERANCE)) h then
        if s.phase = .down then { phase := .up, reps := s.reps + 1, history := h }
        else if s.phase = .start then { phase := .up, reps := s.reps, history := h }
        else { s with history := h }
      else { s with history := h }
    else { s with history := h }
  | true =>
    if angle > c.down_threshold - HYSTERESIS_TOLERANCE then
      if isStable c.stability_frames (fun a => decide (a > c.down_threshold - HYSTERESIS_TOLERANCE)) h then
        { phase := .down, reps := s.reps, history := h }
      else { s with history := h }
    else if angle < c.up_threshold + HYSTERESIS_TOLERANCE then
      if isStable c.stability_frames (fun a => decide (a < c.up_threshold + HYSTERESIS_TOLERANCE)) h then
        if s.phase = .down then { phase := .up, reps := s.reps + 1, history := h }
        else if s.phase = .start then { phase := .up, reps := s.reps, history := h }
        else { s with history := h }
      else { s with history := h }
    else { s with history := h }

/-- `RepetitionCounter._prefixed`: prepend `state_prefix` (when set) to
every state name except `start` and `unknown`. -/
def prefixed (c : RCConfig) (st : String) : String :=
  if c.statePfx ≠ "" ∧ st ≠ RepPhase.start.value ∧ st ≠ RepPhase.unknown.value then
    c.statePfx ++ "_" ++ st
  else st

/-- The `state` property of `RepetitionCounter`. -/
def rcStateStr (c : RCConfig) (s : RCState) : String :=
  prefixed c s.phase.value

/-- `RepetitionCounter.reset`. -/
def rcReset (_s : RCState) : RCState :=
  { phase := .start, reps := 0, history := [] }

/-- `RepetitionCounter.__init__`: the constructed configuration and
initial mutable state. -/
def rcInit (up_threshold down_threshold : ℚ) (start_stage : String)
    (inverted : Bool) (statePfx : String) (stability_frames : ℕ) :
    RCConfig × RCState :=
  (⟨up_threshold, down_threshold, inverted, statePfx, stability_frames⟩,
   ⟨parse_phase start_stage, 0, []⟩)

/-- Feeding a list of angle samples to `process`, one call per sample. -/
def rcRun (c : RCConfig) (s : RCState) (angles : List ℚ) : RCState :=
  angles.foldl (rcProcess c) s

/-- The committed UP transition of `process` as a map on (phase, reps):
from DOWN a rep is counted, from START no rep is counted, any other
phase is left alone. -/
def tauUp : RepPhase × ℕ → RepPhase × ℕ
  | (.down, r) => (.up, r + 1)
  | (.start, r) => (.up, r)
  | (p, r) => (p, r)

/-- The committed DOWN transition of `process` as a map on (phase, reps). -/
def tauDown : RepPhase × ℕ → RepPhase × ℕ
  | (_, r) => (.down, r)

/-- A single `process` call at angle `a` behaves as: push the sample,
then apply `tau` to (phase, reps) exactly when `pred` is stable on the
updated buffer. -/
def StepTau (c : RCConfig) (a : ℚ) (tau : RepPhase × ℕ → RepPhase × ℕ)
    (pred : ℚ → Bool) : Prop :=
  ∀ s : RCState, rcProcess c s a =
    if isStable c.stability_frames pred (pushHist s.history a) then
      ⟨(tau (s.phase, s.reps)).1, (tau (s.phase, s.reps)).2, pushHist s.history a⟩
    else ⟨s.phase, s.reps, pushHist s.history a⟩

/-! ### src/core/fsm.py — StaticDurationCounter -/

/-- `HoldPhase` enum from src/core/fsm.py. -/
inductive HoldPhase where
  | waiting
  | countdown
  | active
  | finished
deriving DecidableEq, Repr

/-- Python `int(x)` on a float: truncation toward zero. -/
def pyInt (q : ℚ) : ℤ :=
  if 0 ≤ q then ⌊q⌋ else ⌈q⌉

/-- The fields of `StaticDurationCounter` (configuration plus mutable
state).  `hold_start` and `active_start` are `Optional[float]`. -/
structure StaticDurationCounter where
  stability_duration : ℚ
  phase : HoldPhase
  elapsed_seconds : ℤ
  hold_start : Option ℚ
  active_start : Option ℚ
  elapsed_raw : ℚ
  countdown_remaining : ℤ
deriving DecidableEq

/-- `StaticDurationCounter.__init__(stability_duration)`. -/
def sdInit (stability_duration : ℚ) : StaticDurationCounter :=
  ⟨stability_duration, .waiting, 0, none, none, 0, 0⟩

/-- `StaticDurationCounter.process(is_valid, timestamp)`.  The
`getD 0` on the start timestamps models the Python attribute access on
values that the FSM invariant guarantees are set in those phases. -/
def sdProcess (s : StaticDurationCounter) (is_valid : Bool) (timestamp : ℚ) :
    StaticDurationCounter :=
  let s1 :=
    match s.phase with
    | .waiting =>
      if is_valid then { s with phase := .countdown, hold_start := some timestamp } else s
    | .countdown =>
      if is_valid then
        let hold_time := timestamp - s.hold_start.getD 0
        if hold_time ≥ s.stability_duration then
          { s with phase := .active, active_start := some timestamp, elapsed_raw := 0 }
        else
          { s with countdown_remaining := pyInt (s.stability_duration - hold_time) + 1 }
      else
        { s with phase := .waiting, hold_start := none, countdown_remaining := 0 }
    | .active =>
      if is_valid then { s with elapsed_raw := timestamp - s.active_start.getD 0 }
      else { s with phase := .finished }
    | .finished => s
  { s1 with elapsed_seconds := pyInt s1.elapsed_raw }

/-- `StaticDurationCounter.reset`. -/
def sdReset (s : StaticDurationCounter) : StaticDurationCounter :=
  { s with phase := .waiting, elapsed_seconds := 0, hold_start := none,
           active_start := none, elapsed_raw := 0, countdown_remaining := 0 }

/-- Feeding a list of `(is_valid, timestamp)` frames to `process`. -/
def sdRun (s : StaticDurationCounter) (frames : List (Bool × ℚ)) :
    StaticDurationCounter :=
  frames.foldl (fun st p => sdProcess st p.1 p.2) s

/-! ### src/core/feedback.py — FeedbackSystem -/

/-- `FeedbackSystem.add_rule`: `bisect.insort` on the ascending
priority-sorted rule list (the new rule goes after existing rules of
lower-or-equal priority). -/
def add_rule {α : Type} (rules : List (ℤ × (α → Bool) × String))
    (condition : α → Bool) (message_key : String) (priority : ℤ) :
    List (ℤ × (α → Bool) × String) :=
  match rules with
  | [] => [(priority, condition, message_key)]
  | r :: rest =>
    if priority < r.1 then (priority, condition, message_key) :: r :: rest
    else r :: add_rule rest condition message_key priority

/-- The scan of `FeedbackSystem.check` over `reversed(self.rules)`:
return the first triggered rule's key with `is_valid=False`, else the
default perfect-form key with `is_valid=True`. -/
def checkScan {α : Type} : List (ℤ × (α → Bool) × String) → α → String × Bool
  | [], _ => ("feedback_perfect", true)
  | (_, condition, msg_key) :: rest, ctx =>
    if condition ctx then (msg_key, false) else checkScan rest ctx

/-- `FeedbackSystem.check(context)`: iterate the ascending rule list in
reverse so that the highest priority is examined first. -/
def check {α : Type} (rules : List (ℤ × (α → Bool) × String)) (ctx : α) :
    String × Bool :=
  checkScan rules.reverse ctx

/-! ### src/utils/smoothing.py — OneEuroFilter / PointSmoother -/

/-- The value of `math.pi` (as a rational; the claims do not depend on
its exact value). -/
def mathPi : ℚ := 3.141592653589793

/-- `OneEuroFilter.smoothing_factor`. -/
def smoothing_factor (dt cutoff : ℚ) : ℚ :=
  let r := 2 * mathPi * cutoff * dt
  r / (r + 1)

/-- `OneEuroFilter.exponential_smoothing`. -/
def exponential_smoothing (a x x_prev : ℚ) : ℚ :=
  a * x + (1 - a) * x_prev

/-- `OneEuroFilter`: parameters plus the persisted
`(x_prev, dx_prev, t_prev)` triple.  The three `None`-able attributes
are always assigned or cleared together in the source, so they are
modelled as one `Option` of the triple. -/
structure OneEuroFilter where
  min_cutoff : ℚ
  beta : ℚ
  d_cutoff : ℚ
  state : Option (ℚ × ℚ × ℚ)
deriving DecidableEq

/-- `OneEuroFilter.__init__`. -/
def euroInit (min_cutoff beta d_cutoff : ℚ) : OneEuroFilter :=
  ⟨min_cutoff, beta, d_cutoff, none⟩

/-- `OneEuroFilter.__call__(x, t)` with an explicit timestamp (the
`t=None` default falls back to the wall clock, which the caller of this
model supplies). -/
def euroCall (f : OneEuroFilter) (x t : ℚ) : ℚ × OneEuroFilter :=
  match f.state with
  | none => (x, { f with state := some (x, 0, t) })
  | some (x_prev, dx_prev, t_prev) =>
    let dt := t - t_prev
    if dt ≤ 0 then (x_prev, f)
    else
      let a_d := smoothing_factor dt f.d_cutoff
      let dx := (x - x_prev) / dt
      let dx_hat := exponential_smoothing a_d dx dx_prev
      let cutoff := f.min_cutoff + f.beta * |dx_hat|
      let a := smoothing_factor dt cutoff
      let x_hat := exponential_smoothing a x x_prev
      (x_hat, { f with state := some (x_hat, dx_hat, t) })

/-- `OneEuroFilter.reset`. -/
def euroReset (f : OneEuroFilter) : OneEuroFilter :=
  { f with state := none }

/-- `PointSmoother`: two independent scalar filters. -/
structure PointSmoother where
  filter_x : OneEuroFilter
  filter_y : OneEuroFilter
deriving DecidableEq

/-- `PointSmoother.__init__` (`d_cutoff` keeps its default 1.0). -/
def psInit (min_cutoff beta : ℚ) : PointSmoother :=
  ⟨euroInit min_cutoff beta 1, euroInit min_cutoff beta 1⟩

/-- `PointSmoother.__call__`. -/
def psCall (ps : PointSmoother) (point : ℚ × ℚ) (t : ℚ) :
    (ℚ × ℚ) × PointSmoother :=
  let rx := euroCall ps.filter_x point.1 t
  let ry := euroCall ps.filter_y point.2 t
  ((rx.1, ry.1), ⟨rx.2, ry.2⟩)

/-- `PointSmoother.reset`. -/
def psReset (ps : PointSmoother) : PointSmoother :=
  ⟨euroReset ps.filter_x, euroReset ps.filter_y⟩

/-! ### src/utils/geometry.py — calculate_angle -/

/-- Python `round(_, 2)` is decimal rounding with ties to even; the
integer-valued core of that rounding. -/
def roundHalfEven (q : ℚ) : ℤ :=
  let f := ⌊q⌋
  let frac := q - f
  if frac < 1/2 then f
  else if 1/2 < frac then f + 1
  else if f % 2 = 0 then f else f + 1

/-- `round(angle, 2)`. -/
def pyRound2 (q : ℚ) : ℚ :=
  (roundHalfEven (q * 100) : ℚ) / 100

/-- `calculate_angle(a, b, c)` from src/utils/geometry.py, with
`math.sqrt` abstracted as `sqrtQ` and `math.degrees(math.acos ·)`
abstracted as `acosDeg`.  Vectors BA and BC, dot product, magnitudes, a
zero-magnitude guard returning `0.0`, cosine clamped to `[-1, 1]`, then
the angle in degrees rounded to 2 decimals. -/
def calculate_angle (sqrtQ acosDeg : ℚ → ℚ) (a b c : ℚ × ℚ) : ℚ :=
  let ba_x := a.1 - b.1
  let ba_y := a.2 - b.2
  let bc_x := c.1 - b.1
  let bc_y := c.2 - b.2
  let dot_product := ba_x * bc_x + ba_y * bc_y
  let mag_ba := sqrtQ (ba_x ^ 2 + ba_y ^ 2)
  let mag_bc := sqrtQ (bc_x ^ 2 + bc_y ^ 2)
  if mag_ba * mag_bc = 0 then 0
  else
    let cosine_angle := dot_product / (mag_ba * mag_bc)
    let clamped := max (-1) (min 1 cosine_angle)
    pyRound2 (acosDeg clamped)

/-! ### src/core/interfaces.py and the exercise analyzers -/

/-- One detector keypoint `[x, y, conf]`. -/
structure Joint where
  x : ℚ
  y : ℚ
  conf : ℚ
deriving DecidableEq

/-- The 17-keypoint per-frame array produced by the detector. -/
abbrev Landmarks := Fin 17 → Joint

/-- `landmarks[i][:2]`. -/
def pt (lm : Landmarks) (i : Fin 17) : ℚ × ℚ :=
  ((lm i).x, (lm i).y)

/-- `AnalysisResult` from src/core/interfaces.py. -/
structure AnalysisResult where
  reps : ℕ
  stage : String
  correction : String
  angle : ℚ
  is_valid : Bool
deriving DecidableEq

/-- `Exercise.smooth_landmarks`: run each registered smoother on the raw
coordinates of its keypoint (reading from the original array, writing
into a copy; confidences are untouched), returning the smoothed copy
and the advanced smoother states.  An out-of-range index is skipped
(the `IndexError` guard). -/
def smoothLandmarks (smoothers : List (ℕ × PointSmoother)) (landmarks : Landmarks)
    (t : ℚ) : Landmarks × List (ℕ × PointSmoother) :=
  smoothers.foldl
    (fun acc entry =>
      if h : entry.1 < 17 then
        let i : Fin 17 := ⟨entry.1, h⟩
        let res := psCall entry.2 ((landmarks i).x, (landmarks i).y) t
        (Function.update acc.1 i { acc.1 i with x := res.1.1, y := res.1.2 },
         acc.2 ++ [(entry.1, res.2)])
      else (acc.1, acc.2 ++ [(entry.1, entry.2)]))
    (landmarks, [])

/-- History append on the `deque(maxlen=30)` of `Exercise.__init__`
(newest entry first in this list model). -/
def push30 {E : Type} (h : List E) (e : E) : List E :=
  (e :: h).take 30

/-- `Exercise._is_stable_change` (exercised by PushUp with
`consistency_frames=2`), checked against the analyzer history as it
stands before the current frame is appended. -/
def isStableChange {E : Type} (history : List E) (pred : E → Bool)
    (consistency_frames : ℕ) : Bool :=
  decide (consistency_frames ≤ history.length) && (history.take consistency_frames).all pred

/-- The `sides_to_process` selection shared by the analyzers:
`"left"`/`"both"` contribute the left side, `"right"`/`"both"` the
right side, in that order. -/
def sidesToProcess (side : String) : List String :=
  (if side = "left" ∨ side = "both" then ["left"] else []) ++
  (if side = "right" ∨ side = "both" then ["right"] else [])

/-! #### src/exercises/squat.py -/

/-- The Squat configuration surface (`up_angle`, `down_angle`, `side`). -/
structure SquatConfig where
  up_angle : ℚ
  down_angle : ℚ
  side : String
deriving DecidableEq

/-- The `RepetitionCounter` built in `Squat.__init__`: the configured
thresholds, `start_stage="squat_up"`, and all remaining constructor
defaults (standard mode, no state prefix, default stability frames). -/
def squatFsmConfig (cfg : SquatConfig) : RCConfig :=
  ⟨cfg.up_angle, cfg.down_angle, false, "", FSM_STABILITY_FRAMES⟩

/-- `HistoryEntry` as appended by Squat. -/
structure HistoryEntry where
  angle : ℚ
  stage : String
  reps : ℕ
  is_valid : Bool
deriving DecidableEq

/-- The mutable state owned by a `Squat` instance. -/
structure SquatState where
  reps : ℕ
  stage : String
  history : List HistoryEntry
  smoothers : List (ℕ × PointSmoother)
  fsm : RCState
deriving DecidableEq

/-- The smoother dictionary of `Squat.__init__`
(`min_cutoff=0.1, beta=0.05` per tracked joint). -/
def squatSmoothers : List (ℕ × PointSmoother) :=
  [(11, psInit 0.1 0.05), (13, psInit 0.1 0.05), (15, psInit 0.1 0.05),
   (12, psInit 0.1 0.05), (14, psInit 0.1 0.05), (16, psInit 0.1 0.05)]

/-- `Squat.__init__`: fresh analyzer state (the FSM starts from
`_parse_phase("squat_up")`). -/
def squatInit (_cfg : SquatConfig) : SquatState :=
  ⟨0, "start", [], squatSmoothers, ⟨parse_phase "squat_up", 0, []⟩⟩

/-- The per-side confidence gate of `Squat.process_frame`:
`min(conf_hip, conf_knee, conf_ankle) >= CONFIDENCE_THRESHOLD` on the
raw landmarks. -/
def squatGate (landmarks : Landmarks) (i1 i2 i3 : Fin 17) : Bool :=
  decide (min (landmarks i1).conf (min (landmarks i2).conf (landmarks i3).conf)
    ≥ CONFIDENCE_THRESHOLD)

/-- The feedback context `{"angle": ..., "stage": ...}` built by Squat. -/
structure SquatContext where
  angle : ℚ
  stage : String

/-- `Squat.process_frame(landmarks, timestamp)`. -/
def squatProcessFrame (sqrtQ acosDeg : ℚ → ℚ) (cfg : SquatConfig)
    (st : SquatState) (landmarks : Landmarks) (t : ℚ) :
    AnalysisResult × SquatState :=
  let sm := smoothLandmarks st.smoothers landmarks t
  let sl := sm.1
  let smoothers := sm.2
  let sides := sidesToProcess cfg.side
  let leftAngles :=
    if "left" ∈ sides ∧ squatGate landmarks 11 13 15 then
      [calculate_angle sqrtQ acosDeg (pt sl 11) (pt sl 13) (pt sl 15)]
    else []
  let rightAngles :=
    if "right" ∈ sides ∧ squatGate landmarks 12 14 16 then
      [calculate_angle sqrtQ acosDeg (pt sl 12) (pt sl 14) (pt sl 16)]
    else []
  let valid_angles := leftAngles ++ rightAngles
  if valid_angles.length < sides.length then
    (⟨st.reps, "unknown", "err_body_not_visible", 0, false⟩,
     { st with smoothers := smoothers })
  else
    let angle := valid_angles.sum / (valid_angles.length : ℚ)
    let fsm1 := rcProcess (squatFsmConfig cfg) st.fsm angle
    let reps := fsm1.reps
    let stage_raw := rcStateStr (squatFsmConfig cfg) fsm1
    let stage :=
      if stage_raw = "up" then "squat_up"
      else if stage_raw = "down" then "squat_down"
      else stage_raw
    let fb := check (α := SquatContext) [] ⟨angle, stage⟩
    let correction := if fb.1 = "feedback_perfect" then "squat_perfect_form" else fb.1
    let is_valid := fb.2
    let history := push30 st.history ⟨angle, stage, reps, is_valid⟩
    (⟨reps, stage, correction, angle, is_valid⟩,
     ⟨reps, stage, history, smoothers, fsm1⟩)

/-- `Squat.reset`: `super().reset()` (count, stage, history, filters)
plus `self.fsm.reset()`; the feedback reset is a no-op. -/
def squatReset (st : SquatState) : SquatState :=
  ⟨0, "start", [], st.smoothers.map (fun p => (p.1, psReset p.2)), rcReset st.fsm⟩

/-! #### src/exercises/pushup.py -/

/-- The PushUp configuration surface
(`up_angle`, `down_angle`, `form_angle_min`, `side`). -/
structure PushUpConfig where
  up_angle : ℚ
  down_angle : ℚ
  form_angle_min : ℚ
  side : String
deriving DecidableEq

/-- The extended history entry appended by PushUp. -/
structure PushUpHistoryEntry where
  angle : ℚ
  body_angle : ℚ
  stage : String
  reps : ℕ
  is_valid : Bool
deriving DecidableEq

/-- The mutable state owned by a `PushUp` instance. -/
structure PushUpState where
  reps : ℕ
  stage : String
  history : List PushUpHistoryEntry
  smoothers : List (ℕ × PointSmoother)
deriving DecidableEq

/-- The smoother dictionary of `PushUp.__init__`. -/
def pushupSmoothers : List (ℕ × PointSmoother) :=
  [(5, psInit 0.1 0.05), (7, psInit 0.1 0.05), (9, psInit 0.1 0.05),
   (11, psInit 0.1 0.05), (15, psInit 0.1 0.05),
   (6, psInit 0.1 0.05), (8, psInit 0.1 0.05), (10, psInit 0.1 0.05),
   (12, psInit 0.1 0.05), (16, psInit 0.1 0.05)]

/-- `PushUp.__init__`: fresh analyzer state. -/
def pushupInit (_cfg : PushUpConfig) : PushUpState :=
  ⟨0, "start", [], pushupSmoothers⟩

/-- The left-side confidence gate of `PushUp.process_frame`: all five
required keypoints (shoulder, elbow, wrist, hip, ankle) must meet the
threshold on the raw landmarks. -/
def pushupGateLeft (landmarks : Landmarks) : Bool :=
  ([5, 7, 9, 11, 15] : List (Fin 17)).all
    (fun i => decide ((landmarks i).conf ≥ CONFIDENCE_THRESHOLD))

/-- The right-side confidence gate of `PushUp.process_frame`. -/
def pushupGateRight (landmarks : Landmarks) : Bool :=
  ([6, 8, 10, 12, 16] : List (Fin 17)).all
    (fun i => decide ((landmarks i).conf ≥ CONFIDENCE_THRESHOLD))

/-- `np.mean` of the left-side confidences. -/
def confSideLeft (landmarks : Landmarks) : ℚ :=
  (([5, 7, 9, 11, 15] : List (Fin 17)).map (fun i => (landmarks i).conf)).sum / 5

/-- `np.mean` of the right-side confidences. -/
def confSideRight (landmarks : Landmarks) : ℚ :=
  (([6, 8, 10, 12, 16] : List (Fin 17)).map (fun i => (landmarks i).conf)).sum / 5

/-- `angle_l_elbow`: shoulder–elbow–wrist on the smoothed left side. -/
def angleElbowL (sqrtQ acosDeg : ℚ → ℚ) (sl : Landmarks) : ℚ :=
  calculate_angle sqrtQ acosDeg (pt sl 5) (pt sl 7) (pt sl 9)

/-- `angle_l_body`: shoulder–hip–ankle on the smoothed left side. -/
def angleBodyL (sqrtQ acosDeg : ℚ → ℚ) (sl : Landmarks) : ℚ :=
  calculate_angle sqrtQ acosDeg (pt sl 5) (pt sl 11) (pt sl 15)

/-- `angle_r_elbow`: shoulder–elbow–wrist on the smoothed right side. -/
def angleElbowR (sqrtQ acosDeg : ℚ → ℚ) (sl : Landmarks) : ℚ :=
  calculate_angle sqrtQ acosDeg (pt sl 6) (pt sl 8) (pt sl 10)

/-- `angle_r_body`: shoulder–hip–ankle on the smoothed right side. -/
def angleBodyR (sqrtQ acosDeg : ℚ → ℚ) (sl : Landmarks) : ℚ :=
  calculate_angle sqrtQ acosDeg (pt sl 6) (pt sl 12) (pt sl 16)

/-- `PushUp.process_frame(landmarks, timestamp)`. -/
def pushupProcessFrame (sqrtQ acosDeg : ℚ → ℚ) (cfg : PushUpConfig)
    (st : PushUpState) (landmarks : Landmarks) (t : ℚ) :
    AnalysisResult × PushUpState :=
  let sm := smoothLandmarks st.smoothers landmarks t
  let sl := sm.1
  let smoothers := sm.2
  let sides := sidesToProcess cfg.side
  let data_left : Option (ℚ × ℚ × ℚ) :=
    if "left" ∈ sides ∧ pushupGateLeft landmarks then
      some (angleElbowL sqrtQ acosDeg sl, angleBodyL sqrtQ acosDeg sl, confSideLeft landmarks)
    else none
  let data_right : Option (ℚ × ℚ × ℚ) :=
    if "right" ∈ sides ∧ pushupGateRight landmarks then
      some (angleElbowR sqrtQ acosDeg sl, angleBodyR sqrtQ acosDeg sl, confSideRight landmarks)
    else none
  let fused : Option (ℚ × ℚ) :=
    match data_left, data_right with
    | some dl, some dr =>
      if |dl.2.2 - dr.2.2| > 0.1 then
        if dl.2.2 > dr.2.2 then some (dl.1, dl.2.1) else some (dr.1, dr.2.1)
      else some ((dl.1 + dr.1) / 2, (dl.2.1 + dr.2.1) / 2)
    | some dl, none => some (dl.1, dl.2.1)
    | none, some dr => some (dr.1, dr.2.1)
    | none, none => none
  match fused with
  | none =>
    (⟨st.reps, "unknown", "err_body_not_visible", 0, false⟩,
     { st with smoothers := smoothers })
  | some ca =>
    let current_angle := ca.1
    let current_body_angle := ca.2
    -- FORM CHECK: the warn branch keeps is_valid True ("[UX] Permissive").
    let correction :=
      if current_body_angle < cfg.form_angle_min then "pushup_warn_back"
      else "pushup_perfect_form"
    let is_valid := true
    let stage1 :=
      if current_angle < cfg.down_angle ∧
          isStableChange st.history
            (fun e => decide (e.angle < cfg.down_angle + HYSTERESIS_TOLERANCE)) 2 then
        "pushup_down"
      else st.stage
    let upNow :=
      current_angle > cfg.up_angle ∧ stage1 = "pushup_down" ∧
        isStableChange st.history
          (fun e => decide (e.angle > cfg.up_angle - HYSTERESIS_TOLERANCE)) 2
    let stage2 := if upNow then "pushup_up" else stage1
    let reps2 := if upNow then st.reps + 1 else st.reps
    let history := push30 st.history
      ⟨current_angle, current_body_angle, stage2, reps2, is_valid⟩
    (⟨reps2, stage2, correction, current_angle, is_valid⟩,
     ⟨reps2, stage2, history, smoothers⟩)

/-- `PushUp.reset` (only `super().reset()`). -/
def pushupReset (st : PushUpState) : PushUpState :=
  ⟨0, "start", [], st.smoothers.map (fun p => (p.1, psReset p.2))⟩

/-! ### Concrete instances used to exercise the definitions -/

/-- A fresh hold timer with `stability_duration=3.0`. -/
def sdDemo0 : StaticDurationCounter := sdInit 3

/-- After `process(valid=True, t=0)`. -/
def sdDemo1 : StaticDurationCounter := sdProcess sdDemo0 true 0

/-- After `process(valid=True, t=3.1)`. -/
def sdDemo2 : StaticDurationCounter := sdProcess sdDemo1 true 3.1

/-- After `process(valid=True, t=8.1)`. -/
def sdDemo3 : StaticDurationCounter := sdProcess sdDemo2 true 8.1

/-- After `process(valid=False, t=9.0)`. -/
def sdDemo4 : StaticDurationCounter := sdProcess sdDemo3 false 9

/-- Two always-triggered rules of priorities 5 and 10 registered through
`add_rule`. -/
def demoRules : List (ℤ × (ℚ → Bool) × String) :=
  add_rule (add_rule [] (fun _ => true) "key_minor" 5) (fun _ => true) "key_critical" 10

/-- A frame whose joints all carry confidence 0.2 (below threshold). -/
def lmAllLow : Landmarks := fun i => ⟨(i : ℚ), (i : ℚ) * 2, 0.2⟩

/-- A frame whose joints all carry confidence 0.9. -/
def lmAllHigh : Landmarks := fun i => ⟨(i : ℚ), (i : ℚ) * 2, 0.9⟩

/-- A frame whose odd-index (left-side) joints carry confidence 0.9 and
whose even-index (right-side) joints carry confidence 0.6. -/
def lmLeftHigh : Landmarks := fun i =>
  if i.val % 2 = 1 then ⟨(i : ℚ), (i : ℚ) * 2, 0.9⟩ else ⟨(i : ℚ), (i : ℚ) * 2, 0.6⟩

/-- A concrete stand-in for `math.sqrt` (the identity map; it satisfies
the zero-only-at-zero property used by the geometry claims). -/
def demoSqrt : ℚ → ℚ := fun q => q

/-- A concrete stand-in for `math.degrees(math.acos ·)` (constantly 90,
inside the [0, 180] range of the real function). -/
def demoAcos : ℚ → ℚ := fun _ => 90

/-- A default squat configuration (settings thresholds, right side). -/
def squatCfgDemo : SquatConfig := ⟨160, 90, "right"⟩

/-- A push-up configuration (settings thresholds, both sides). -/
def pushupCfgDemo : PushUpConfig := ⟨160, 90, 160, "both"⟩

/-! ### Supporting lemmas about the repetition counter -/

theorem rcProcess_history (c : RCConfig) (s : RCState) (a : ℚ) :
    (rcProcess c s a).history = pushHist s.history a := by
  unfold rcProcess
  cases hc : c.inverted <;> (dsimp only; split_ifs <;> rfl)

theorem rcRun_history (c : RCConfig) (s : RCState) (l : List ℚ) :
    (rcRun c s l).history = l.foldl pushHist s.history := by
  induction l generalizing s with
  | nil => rfl
  | cons a t ih =>
    show (rcRun c (rcProcess c s a) t).history = _
    rw [ih, List.foldl_cons, rcProcess_history]

theorem take_append_take {β : Type} (x y : List β) (k : ℕ) :
    (x ++ y.take k).take k = (x ++ y).take k := by
  rw [List.take_append_eq_append_take, List.take_append_eq_append_take, List.take_take,
    Nat.min_eq_left (Nat.sub_le k x.length)]

theorem cons_take_take (a : ℚ) (l : List ℚ) :
    (a :: l.take 5).take 5 = (a :: l).take 5 := by
  have h := take_append_take [a] l 5
  simpa using h

theorem foldl_pushHist_replicate (a : ℚ) :
    ∀ (n : ℕ) (h : List ℚ), 1 ≤ n →
      (List.replicate n a).foldl pushHist h = (List.replicate n a ++ h).take 5 := by
  intro n
  induction n with
  | zero => intro h h1; omega
  | succ m ih =>
    intro h _
    rcases Nat.eq_zero_or_pos m with hm | hm
    · subst hm; rfl
    · rw [List.replicate_succ, List.foldl_cons, ih (pushHist h a) hm]
      show (List.replicate m a ++ (a :: h).take 5).take 5 = _
      rw [take_append_take]
      rw [show a :: h = [a] ++ h from rfl, ← List.append_assoc, ← List.replicate_succ',
        List.replicate_succ]

theorem isStable_replicate {sf n : ℕ} {a : ℚ} {h0 : List ℚ} {pred : ℚ → Bool}
    (hsf5 : sf ≤ 5) (hn : sf ≤ n) (hpred : pred a = true) :
    isStable sf pred ((List.replicate n a ++ h0).take 5) = true := by
  unfold isStable
  rw [Bool.and_eq_true]
  constructor
  · rw [decide_eq_true_eq, List.length_take, List.length_append, List.length_replicate]
    exact le_min hsf5 (le_trans hn (Nat.le_add_right _ _))
  · rw [List.take_take, Nat.min_eq_left hsf5, List.take_append_eq_append_take,
      List.length_replicate, Nat.sub_eq_zero_of_le hn, List.take_zero, List.append_nil,
      List.take_replicate, Nat.min_eq_left hn]
    rw [List.all_eq_true]
    intro x hx
    rw [List.eq_of_mem_replicate hx]
    exact hpred

theorem tauUp_idem (x : RepPhase × ℕ) : tauUp (tauUp x) = tauUp x := by
  obtain ⟨p, r⟩ := x
  cases p <;> rfl

theorem tauDown_idem (x : RepPhase × ℕ) : tauDown (tauDown x) = tauDown x := rfl

theorem stepTau_up {c : RCConfig} {a : ℚ} (hinv : c.inverted = false)
    (h1 : ¬(a < c.down_threshold + HYSTERESIS_TOLERANCE))
    (h2 : a > c.up_threshold - HYSTERESIS_TOLERANCE) :
    StepTau c a tauUp (fun x => decide (x > c.up_threshold - HYSTERESIS_TOLERANCE)) := by
  intro s
  unfold rcProcess
  rw [hinv]
  dsimp only
  rw [if_neg h1, if_pos h2]
  by_cases hst : isStable c.stability_frames
      (fun x => decide (x > c.up_threshold - HYSTERESIS_TOLERANCE)) (pushHist s.history a) = true
  · rw [if_pos hst, if_pos hst]
    cases hp : s.phase <;> simp [hp, tauUp]
  · rw [if_neg hst, if_neg hst]

theorem stepTau_down {c : RCConfig} {a : ℚ} (hinv : c.inverted = false)
    (h1 : a < c.down_threshold + HYSTERESIS_TOLERANCE) :
    StepTau c a tauDown (fun x => decide (x < c.down_threshold + HYSTERESIS_TOLERANCE)) := by
  intro s
  unfold rcProcess
  rw [hinv]
  dsimp only
  rw [if_pos h1]
  by_cases hst : isStable c.stability_frames
      (fun x => decide (x < c.down_threshold + HYSTERESIS_TOLERANCE)) (pushHist s.history a) = true
  · rw [if_pos hst, if_pos hst]
    rfl
  · rw [if_neg hst, if_neg hst]

theorem rcRun_const_mem {c : RCConfig} {a : ℚ} {tau : RepPhase × ℕ → RepPhase × ℕ}
    {pred : ℚ → Bool} (hstep : StepTau c a tau pred)
    (htau : ∀ x, tau (tau x) = tau x) :
    ∀ (n : ℕ) (s : RCState),
      ((rcRun c s (List.replicate n a)).phase, (rcRun c s (List.replicate n a)).reps)
        = (s.phase, s.reps) ∨
      ((rcRun c s (List.replicate n a)).phase, (rcRun c s (List.replicate n a)).reps)
        = tau (s.phase, s.reps) := by
  intro n
  induction n with
  | zero => intro s; left; rfl
  | succ m ih =>
    intro s
    have hd : rcRun c s (List.replicate (m + 1) a)
        = rcRun c (rcProcess c s a) (List.replicate m a) := by
      rw [List.replicate_succ]
      rfl
    rw [hd]
    have hpair : ((rcProcess c s a).phase, (rcProcess c s a).reps) = (s.phase, s.reps) ∨
        ((rcProcess c s a).phase, (rcProcess c s a).reps) = tau (s.phase, s.reps) := by
      rw [hstep s]
      by_cases hst : isStable c.stability_frames pred (pushHist s.history a) = true
      · rw [if_pos hst]; right; rfl
      · rw [if_neg hst]; left; rfl
    rcases ih (rcProcess c s a) with h | h <;> rw [h] <;> rcases hpair with h2 | h2 <;>
      rw [h2]
    · left; rfl
    · right; rfl
    · right; rfl
    · right; rw [htau]

theorem rcRun_const_tau {c : RCConfig} {a : ℚ} {tau : RepPhase × ℕ → RepPhase × ℕ}
    {pred : ℚ → Bool} (hstep : StepTau c a tau pred)
    (htau : ∀ x, tau (tau x) = tau x) (hpred : pred a = true)
    (hsf5 : c.stability_frames ≤ 5) {n : ℕ} (hn : c.stability_frames ≤ n)
    (hn1 : 1 ≤ n) (s : RCState) :
    ((rcRun c s (List.replicate n a)).phase, (rcRun c s (List.replicate n a)).reps)
      = tau (s.phase, s.reps) ∧
    (rcRun c s (List.replicate n a)).history = (List.replicate n a ++ s.history).take 5 := by
  constructor
  · obtain ⟨m, rfl⟩ : ∃ m, n = m + 1 := ⟨n - 1, by omega⟩
    have hd : rcRun c s (List.replicate (m + 1) a)
        = rcProcess c (rcRun c s (List.replicate m a)) a := by
      rw [List.replicate_succ', rcRun, List.foldl_append]
      rfl
    rw [hd]
    have hh : (rcRun c s (List.replicate m a)).history =
        (List.replicate m a).foldl pushHist s.history := rcRun_history c s _
    have hpush : pushHist (rcRun c s (List.replicate m a)).history a =
        (List.replicate (m + 1) a ++ s.history).take 5 := by
      rcases Nat.eq_zero_or_pos m with hm | hm
      · subst hm; rfl
      · rw [hh, foldl_pushHist_replicate a m s.history hm]
        show (a :: (List.replicate m a ++ s.history).take 5).take 5 = _
        rw [cons_take_take]
        rfl
    have hstable : isStable c.stability_frames pred
        (pushHist (rcRun c s (List.replicate m a)).history a) = true := by
      rw [hpush]
      exact isStable_replicate hsf5 hn hpred
    rw [hstep (rcRun c s (List.replicate m a)), if_pos hstable]
    rcases rcRun_const_mem hstep htau m s with h | h
    · rw [show ((rcRun c s (List.replicate m a)).phase, (rcRun c s (List.replicate m a)).reps)
          = (s.phase, s.reps) from h]
    · rw [show ((rcRun c s (List.replicate m a)).phase, (rcRun c s (List.replicate m a)).reps)
          = tau (s.phase, s.reps) from h, htau]
  · rw [rcRun_history, foldl_pushHist_replicate a n s.history hn1]

theorem rcRun_append (c : RCConfig) (s : RCState) (l1 l2 : List ℚ) :
    rcRun c s (l1 ++ l2) = rcRun c (rcRun c s l1) l2 := by
  rw [rcRun, rcRun, rcRun, List.foldl_append]

/-- A phase change committed by `process` always carries a stability
certificate for the qualifying condition of the new phase, and an UP
commit can only come from DOWN or START. -/
theorem rcProcess_phase_change (c : RCConfig) (s : RCState) (a : ℚ)
    (hne : (rcProcess c s a).phase ≠ s.phase) :
    ((rcProcess c s a).phase = RepPhase.down ∧
      isStable c.stability_frames (qualDown c) (pushHist s.history a) = true) ∨
    ((rcProcess c s a).phase = RepPhase.up ∧
      isStable c.stability_frames (qualUp c) (pushHist s.history a) = true ∧
      (s.phase = RepPhase.down ∨ s.phase = RepPhase.start)) := by
  revert hne
  unfold rcProcess
  cases hc : c.inverted
  · have hqd : qualDown c = fun x => decide (x < c.down_threshold + HYSTERESIS_TOLERANCE) := by
      funext x
      simp [qualDown, hc]
    have hqu : qualUp c = fun x => decide (x > c.up_threshold - HYSTERESIS_TOLERANCE) := by
      funext x
      simp [qualUp, hc]
    dsimp only
    split_ifs <;> intro hne <;>
      first
      | exact absurd rfl hne
      | exact Or.inl ⟨rfl, by rw [hqd]; assumption⟩
      | exact Or.inr ⟨rfl, by rw [hqu]; assumption, Or.inl ‹s.phase = RepPhase.down›⟩
      | exact Or.inr ⟨rfl, by rw [hqu]; assumption, Or.inr ‹s.phase = RepPhase.start›⟩
  · have hqd : qualDown c = fun x => decide (x > c.down_threshold - HYSTERESIS_TOLERANCE) := by
      funext x
      simp [qualDown, hc]
    have hqu : qualUp c = fun x => decide (x < c.up_threshold + HYSTERESIS_TOLERANCE) := by
      funext x
      simp [qualUp, hc]
    dsimp only
    split_ifs <;> intro hne <;>
      first
      | exact absurd rfl hne
      | exact Or.inl ⟨rfl, by rw [hqd]; assumption⟩
      | exact Or.inr ⟨rfl, by rw [hqu]; assumption, Or.inl ‹s.phase = RepPhase.down›⟩
      | exact Or.inr ⟨rfl, by rw [hqu]; assumption, Or.inr ‹s.phase = RepPhase.start›⟩

/-! ### Supporting lemmas about rounding -/

theorem roundHalfEven_bounds (q : ℚ) :
    ⌊q⌋ ≤ roundHalfEven q ∧ roundHalfEven q ≤ ⌈q⌉ := by
  unfold roundHalfEven
  have hfl : (⌊q⌋ : ℚ) ≤ q := Int.floor_le q
  dsimp only
  split_ifs with h1 h2 h3
  · exact ⟨le_refl _, Int.floor_le_ceil q⟩
  · have hlt : (⌊q⌋ : ℚ) < q := by linarith
    have : ⌊q⌋ < ⌈q⌉ := Int.lt_ceil.mpr hlt
    exact ⟨by omega, by omega⟩
  · exact ⟨le_refl _, Int.floor_le_ceil q⟩
  · have hfrac : q - ⌊q⌋ = 1/2 := le_antisymm (not_lt.mp h2) (not_lt.mp h1)
    have hlt : (⌊q⌋ : ℚ) < q := by linarith
    have : ⌊q⌋ < ⌈q⌉ := Int.lt_ceil.mpr hlt
    exact ⟨by omega, by omega⟩

theorem pyRound2_bounds (q : ℚ) (h0 : 0 ≤ q) (h1 : q ≤ 180) :
    0 ≤ pyRound2 q ∧ pyRound2 q ≤ 180 := by
  obtain ⟨hl, hr⟩ := roundHalfEven_bounds (q * 100)
  have hfl : (0 : ℤ) ≤ ⌊q * 100⌋ := Int.floor_nonneg.mpr (by positivity)
  have hcl : ⌈q * 100⌉ ≤ 18000 := Int.ceil_le.mpr (by push_cast; linarith)
  unfold pyRound2
  constructor
  · apply div_nonneg _ (by norm_num)
    exact_mod_cast le_trans hfl hl
  · rw [div_le_iff₀ (by norm_num : (0 : ℚ) < 100)]
    have h2 : (roundHalfEven (q * 100) : ℚ) ≤ 18000 := by
      exact_mod_cast le_trans hr hcl
    linarith

/-! ### Supporting lemmas about the feedback engine -/

theorem checkScan_none {α : Type} (rules : List (ℤ × (α → Bool) × String)) (ctx : α)
    (h : ∀ r ∈ rules, r.2.1 ctx = false) :
    checkScan rules ctx = ("feedback_perfect", true) := by
  induction rules with
  | nil => rfl
  | cons r rest ih =>
    obtain ⟨p, cond, key⟩ := r
    have h1 : cond ctx = false := h (p, cond, key) (List.mem_cons_self _ _)
    simp only [checkScan, h1, Bool.false_eq_true, if_false]
    exact ih (fun r hr => h r (List.mem_cons_of_mem _ hr))

theorem checkScan_triggered {α : Type} (ctx : α) :
    ∀ rules : List (ℤ × (α → Bool) × String),
      rules.Pairwise (fun r1 r2 => r2.1 ≤ r1.1) →
      (∃ r ∈ rules, r.2.1 ctx = true) →
      ∃ r ∈ rules, r.2.1 ctx = true ∧ checkScan rules ctx = (r.2.2, false) ∧
        ∀ r2 ∈ rules, r2.2.1 ctx = true → r2.1 ≤ r.1 := by
  intro rules
  induction rules with
  | nil =>
    intro _ hex
    rcases hex with ⟨r, hr, _⟩
    exact absurd hr (List.not_mem_nil r)
  | cons a rest ih =>
    intro hp hex
    obtain ⟨q, cond, key⟩ := a
    by_cases hc : cond ctx = true
    · refine ⟨(q, cond, key), List.mem_cons_self _ _, hc, by simp [checkScan, hc], ?_⟩
      intro r2 hr2 _
      rcases List.mem_cons.mp hr2 with rfl | hr2
      · exact le_refl _
      · exact (List.pairwise_cons.mp hp).1 r2 hr2
    · have hex2 : ∃ r ∈ rest, r.2.1 ctx = true := by
        rcases hex with ⟨r, hr, htr⟩
        rcases List.mem_cons.mp hr with rfl | hr
        · exact absurd htr hc
        · exact ⟨r, hr, htr⟩
      obtain ⟨r, hr, htr, hscan, hmax⟩ := ih (List.pairwise_cons.mp hp).2 hex2
      refine ⟨r, List.mem_cons_of_mem _ hr, htr, ?_, ?_⟩
      · have hstep : checkScan ((q, cond, key) :: rest) ctx = checkScan rest ctx := by
          simp [checkScan, hc]
        rw [hstep]
        exact hscan
      · intro r2 hr2 htr2
        rcases List.mem_cons.mp hr2 with rfl | hr2
        · exact absurd htr2 hc
        · exact hmax r2 hr2 htr2

theorem mem_add_rule {α : Type} (cond : α → Bool) (key : String) (p : ℤ) :
    ∀ (rules : List (ℤ × (α → Bool) × String)) (x : ℤ × (α → Bool) × String),
      x ∈ add_rule rules cond key p → x ∈ rules ∨ x = (p, cond, key) := by
  intro rules
  induction rules with
  | nil =>
    intro x hx
    rcases List.mem_singleton.mp hx with rfl
    exact Or.inr rfl
  | cons r rest ih =>
    intro x hx
    unfold add_rule at hx
    split_ifs at hx
    · rcases List.mem_cons.mp hx with rfl | hx
      · exact Or.inr rfl
      · exact Or.inl hx
    · rcases List.mem_cons.mp hx with rfl | hx
      · exact Or.inl (List.mem_cons_self _ _)
      · rcases ih x hx with h | h
        · exact Or.inl (List.mem_cons_of_mem _ h)
        · exact Or.inr h

/-- `add_rule` keeps the rule list sorted by ascending priority, the
invariant under which `check` scans highest priority first. -/
theorem add_rule_sorted {α : Type} (cond : α → Bool) (key : String) (p : ℤ) :
    ∀ rules : List (ℤ × (α → Bool) × String),
      rules.Pairwise (fun r1 r2 => r1.1 ≤ r2.1) →
      (add_rule rules cond key p).Pairwise (fun r1 r2 => r1.1 ≤ r2.1) := by
  intro rules
  induction rules with
  | nil =>
    intro _
    exact List.pairwise_singleton _ _
  | cons r rest ih =>
    intro h
    obtain ⟨hr, hrest⟩ := List.pairwise_cons.mp h
    unfold add_rule
    split_ifs with hp
    · refine List.pairwise_cons.mpr ⟨?_, h⟩
      intro b hb
      rcases List.mem_cons.mp hb with rfl | hb
      · exact le_of_lt hp
      · exact le_trans (le_of_lt hp) (hr b hb)
    · refine List.pairwise_cons.mpr ⟨?_, ih hrest⟩
      intro b hb
      rcases mem_add_rule cond key p rest b hb with h2 | h2
      · exact hr b h2
      · rw [h2]
        exact le_of_not_lt hp

/-! ### Supporting lemmas about the hold timer -/

theorem sdProcess_finished (s : StaticDurationCounter) (v : Bool) (t : ℚ)
    (h : s.phase = HoldPhase.finished)
    (hfix : s.elapsed_seconds = pyInt s.elapsed_raw) :
    sdProcess s v t = s := by
  unfold sdProcess
  rw [h]
  dsimp only
  rw [← hfix]

theorem sdRun_finished (frames : List (Bool × ℚ)) :
    ∀ s : StaticDurationCounter, s.phase = HoldPhase.finished →
      s.elapsed_seconds = pyInt s.elapsed_raw → sdRun s frames = s := by
  induction frames with
  | nil => intro s _ _; rfl
  | cons f fs ih =>
    intro s h hfix
    show sdRun (sdProcess s f.1 f.2) fs = s
    rw [sdProcess_finished s f.1 f.2 h hfix]
    exact ih s h hfix

/-! ### The claims -/

/-- C1: a `RepetitionCounter` in standard (non-inverted) mode started in
START and fed a 170°→80°→170° sequence with at least `stability_frames`
samples per plateau first moves START→UP on the initial stable 170°
plateau without counting a rep, and ends with exactly 1 rep in phase UP,
the rep being counted on the stable DOWN→UP transition.  The thresholds
are any values for which 170° qualifies as UP (and not DOWN) and 80°
qualifies as DOWN, as with the default squat/push-up settings; the
stability window must fit the 5-sample rolling buffer. -/
theorem claim1_standard_rep_cycle (u d : ℚ) (sf n1 n2 n3 : ℕ)
    (c : RCConfig) (s0 : RCState)
    (hc : rcInit u d "start" false "" sf = (c, s0))
    (hsf1 : 1 ≤ sf) (hsf5 : sf ≤ 5)
    (hn1 : sf ≤ n1) (hn2 : sf ≤ n2) (hn3 : sf ≤ n3)
    (hd170 : ¬((170 : ℚ) < d + HYSTERESIS_TOLERANCE))
    (hu170 : (170 : ℚ) > u - HYSTERESIS_TOLERANCE)
    (hd80 : (80 : ℚ) < d + HYSTERESIS_TOLERANCE) :
    ((rcRun c s0 (List.replicate n1 170)).phase = RepPhase.up ∧
     (rcRun c s0 (List.replicate n1 170)).reps = 0) ∧
    ((rcRun c s0 (List.replicate n1 170 ++ List.replicate n2 80 ++ List.replicate n3 170)).phase
        = RepPhase.up ∧
     (rcRun c s0 (List.replicate n1 170 ++ List.replicate n2 80 ++ List.replicate n3 170)).reps
        = 1) := by
  injection hc with hcc hcs
  subst hcc
  subst hcs
  have hs0 : (⟨parse_phase "start", 0, []⟩ : RCState) = ⟨RepPhase.start, 0, []⟩ := by decide
  rw [hs0]
  have hstepU : StepTau ⟨u, d, false, "", sf⟩ 170 tauUp
      (fun x => decide (x > u - HYSTERESIS_TOLERANCE)) :=
    stepTau_up rfl hd170 hu170
  have hstepD : StepTau ⟨u, d, false, "", sf⟩ 80 tauDown
      (fun x => decide (x < d + HYSTERESIS_TOLERANCE)) :=
    stepTau_down rfl hd80
  have h1 := rcRun_const_tau hstepU tauUp_idem (decide_eq_true hu170) hsf5 hn1
    (hsf1.trans hn1) ⟨RepPhase.start, 0, []⟩
  have p1 : ((rcRun ⟨u, d, false, "", sf⟩ ⟨RepPhase.start, 0, []⟩ (List.replicate n1 170)).phase,
      (rcRun ⟨u, d, false, "", sf⟩ ⟨RepPhase.start, 0, []⟩ (List.replicate n1 170)).reps)
      = (RepPhase.up, 0) := h1.1
  have h2 := rcRun_const_tau hstepD tauDown_idem (decide_eq_true hd80) hsf5 hn2
    (hsf1.trans hn2)
    (rcRun ⟨u, d, false, "", sf⟩ ⟨RepPhase.start, 0, []⟩ (List.replicate n1 170))
  have p2 : ((rcRun ⟨u, d, false, "", sf⟩
        (rcRun ⟨u, d, false, "", sf⟩ ⟨RepPhase.start, 0, []⟩ (List.replicate n1 170))
        (List.replicate n2 80)).phase,
      (rcRun ⟨u, d, false, "", sf⟩
        (rcRun ⟨u, d, false, "", sf⟩ ⟨RepPhase.start, 0, []⟩ (List.replicate n1 170))
        (List.replicate n2 80)).reps) = (RepPhase.down, 0) := by
    rw [h2.1, show ((rcRun ⟨u, d, false, "", sf⟩ ⟨RepPhase.start, 0, []⟩
      (List.replicate n1 170)).phase,
      (rcRun ⟨u, d, false, "", sf⟩ ⟨RepPhase.start, 0, []⟩ (List.replicate n1 170)).reps)
      = (RepPhase.up, 0) from p1]
    rfl
  have h3 := rcRun_const_tau hstepU tauUp_idem (decide_eq_true hu170) hsf5 hn3
    (hsf1.trans hn3)
    (rcRun ⟨u, d, false, "", sf⟩
      (rcRun ⟨u, d, false, "", sf⟩ ⟨RepPhase.start, 0, []⟩ (List.replicate n1 170))
      (List.replicate n2 80))
  have hsplit : rcRun ⟨u, d, false, "", sf⟩ ⟨RepPhase.start, 0, []⟩
      (List.replicate n1 170 ++ List.replicate n2 80 ++ List.replicate n3 170)
      = rcRun ⟨u, d, false, "", sf⟩
          (rcRun ⟨u, d, false, "", sf⟩
            (rcRun ⟨u, d, false, "", sf⟩ ⟨RepPhase.start, 0, []⟩ (List.replicate n1 170))
            (List.replicate n2 80))
          (List.replicate n3 170) := by
    rw [rcRun_append, rcRun_append]
  have p3 : ((rcRun ⟨u, d, false, "", sf⟩ ⟨RepPhase.start, 0, []⟩
      (List.replicate n1 170 ++ List.replicate n2 80 ++ List.replicate n3 170)).phase,
      (rcRun ⟨u, d, false, "", sf⟩ ⟨RepPhase.start, 0, []⟩
      (List.replicate n1 170 ++ List.replicate n2 80 ++ List.replicate n3 170)).reps)
      = (RepPhase.up, 1) := by
    rw [hsplit, h3.1, p2]
    rfl
  exact ⟨⟨congrArg Prod.fst p1, congrArg Prod.snd p1⟩,
         ⟨congrArg Prod.fst p3, congrArg Prod.snd p3⟩⟩

theorem claim1_standard_rep_cycle_witness :
    ((rcRun ⟨160, 90, false, "", 2⟩ ⟨RepPhase.start, 0, []⟩ (List.replicate 2 170)).phase
        = RepPhase.up ∧
     (rcRun ⟨160, 90, false, "", 2⟩ ⟨RepPhase.start, 0, []⟩ (List.replicate 2 170)).reps = 0) ∧
    ((rcRun ⟨160, 90, false, "", 2⟩ ⟨RepPhase.start, 0, []⟩
        (List.replicate 2 170 ++ List.replicate 2 80 ++ List.replicate 2 170)).phase
        = RepPhase.up ∧
     (rcRun ⟨160, 90, false, "", 2⟩ ⟨RepPhase.start, 0, []⟩
        (List.replicate 2 170 ++ List.replicate 2 80 ++ List.replicate 2 170)).reps = 1) :=
  claim1_standard_rep_cycle 160 90 2 2 2 2 ⟨160, 90, false, "", 2⟩ ⟨RepPhase.start, 0, []⟩
    rfl (by decide) (by decide) (by decide) (by decide) (by decide)
    (by norm_num [HYSTERESIS_TOLERANCE]) (by norm_num [HYSTERESIS_TOLERANCE])
    (by norm_num [HYSTERESIS_TOLERANCE])

/-- C2: the hold timer with `stability_duration=3.0` starting in
WAITING: `process(True, 0)` yields COUNTDOWN; `process(True, 3.1)`
yields ACTIVE with elapsed 0; `process(True, 8.1)` yields ACTIVE with
elapsed 5; `process(False, 9.0)` yields FINISHED with elapsed frozen at
5; and every further sequence of `process` calls, valid or not, leaves
the phase FINISHED and the elapsed value 5 (until `reset`). -/
theorem claim2_hold_timer_scenario :
    sdDemo1.phase = HoldPhase.countdown ∧
    sdDemo2.phase = HoldPhase.active ∧ sdDemo2.elapsed_seconds = 0 ∧
    sdDemo3.phase = HoldPhase.active ∧ sdDemo3.elapsed_seconds = 5 ∧
    sdDemo4.phase = HoldPhase.finished ∧ sdDemo4.elapsed_seconds = 5 ∧
    (∀ frames : List (Bool × ℚ),
      (sdRun sdDemo4 frames).phase = HoldPhase.finished ∧
      (sdRun sdDemo4 frames).elapsed_seconds = 5) := by
  have e1 : sdDemo1 = ⟨3, .countdown, 0, some 0, none, 0, 0⟩ := by
    norm_num [sdDemo1, sdDemo0, sdInit, sdProcess, pyInt]
  have e2 : sdDemo2 = ⟨3, .active, 0, some 0, some 3.1, 0, 0⟩ := by
    rw [sdDemo2, e1]
    norm_num [sdProcess, pyInt]
  have e3 : sdDemo3 = ⟨3, .active, 5, some 0, some 3.1, 5, 0⟩ := by
    rw [sdDemo3, e2]
    norm_num [sdProcess, pyInt]
  have e4 : sdDemo4 = ⟨3, .finished, 5, some 0, some 3.1, 5, 0⟩ := by
    rw [sdDemo4, e3]
    norm_num [sdProcess, pyInt]
  have hfix : sdDemo4.elapsed_seconds = pyInt sdDemo4.elapsed_raw := by
    rw [e4]
    norm_num [pyInt]
  refine ⟨by rw [e1], by rw [e2], by rw [e2], by rw [e3], by rw [e3], by rw [e4], by rw [e4],
    ?_⟩
  intro frames
  rw [sdRun_finished frames sdDemo4 (by rw [e4]) hfix, e4]
  exact ⟨rfl, rfl⟩

/-- C3: `process` never changes the phase unless the qualifying
threshold condition has held over the last `stability_frames` samples of
the rolling buffer (current sample included); in particular a one-frame
0° outlier amid stable 170° samples (default squat thresholds) leaves
phase and rep count unchanged. -/
theorem claim3_debounced_transitions :
    (∀ (c : RCConfig) (s : RCState) (a : ℚ),
      (rcProcess c s a).phase ≠ s.phase →
      ((rcProcess c s a).phase = RepPhase.down ∧
        isStable c.stability_frames (qualDown c) (pushHist s.history a) = true) ∨
      ((rcProcess c s a).phase = RepPhase.up ∧
        isStable c.stability_frames (qualUp c) (pushHist s.history a) = true)) ∧
    (∀ (k : ℕ) (p : RepPhase) (r : ℕ),
      (rcProcess ⟨160, 90, false, "", 2⟩ ⟨p, r, List.replicate k 170⟩ 0).phase = p ∧
      (rcProcess ⟨160, 90, false, "", 2⟩ ⟨p, r, List.replicate k 170⟩ 0).reps = r) := by
  constructor
  · intro c s a hne
    rcases rcProcess_phase_change c s a hne with h | h
    · exact Or.inl h
    · exact Or.inr ⟨h.1, h.2.1⟩
  · intro k p r
    have hst : isStable 2 (fun x => decide (x < 90 + HYSTERESIS_TOLERANCE))
        (pushHist (List.replicate k 170) 0) = false := by
      cases k with
      | zero => decide
      | succ m =>
        have h2 : (pushHist (List.replicate (m + 1) 170) 0).take 2 = [0, 170] := by
          rw [List.replicate_succ]
          rfl
        have h4 : (([0, 170] : List ℚ).all
            (fun x => decide (x < 90 + HYSTERESIS_TOLERANCE))) = false := by
          show (decide ((0 : ℚ) < 90 + HYSTERESIS_TOLERANCE) &&
            (decide ((170 : ℚ) < 90 + HYSTERESIS_TOLERANCE) && true)) = false
          rw [decide_eq_false (show ¬((170 : ℚ) < 90 + HYSTERESIS_TOLERANCE) by
            norm_num [HYSTERESIS_TOLERANCE])]
          simp
        unfold isStable
        rw [h2, h4, Bool.and_false]
    constructor <;>
      (unfold rcProcess
       dsimp only
       rw [if_pos (show (0 : ℚ) < 90 + HYSTERESIS_TOLERANCE by norm_num [HYSTERESIS_TOLERANCE])]
       simp [hst])

theorem claim3_debounced_transitions_witness :
    (((rcProcess ⟨160, 90, false, "", 2⟩ ⟨RepPhase.start, 0, [170]⟩ 170).phase = RepPhase.down ∧
        isStable 2 (qualDown ⟨160, 90, false, "", 2⟩) (pushHist [170] 170) = true) ∨
      ((rcProcess ⟨160, 90, false, "", 2⟩ ⟨RepPhase.start, 0, [170]⟩ 170).phase = RepPhase.up ∧
        isStable 2 (qualUp ⟨160, 90, false, "", 2⟩) (pushHist [170] 170) = true)) ∧
    ((rcProcess ⟨160, 90, false, "", 2⟩ ⟨RepPhase.up, 7, List.replicate 3 170⟩ 0).phase
        = RepPhase.up ∧
     (rcProcess ⟨160, 90, false, "", 2⟩ ⟨RepPhase.up, 7, List.replicate 3 170⟩ 0).reps = 7) := by
  have h170d : ¬((170 : ℚ) < 90 + HYSTERESIS_TOLERANCE) := by norm_num [HYSTERESIS_TOLERANCE]
  have h170u : (170 : ℚ) > 160 - HYSTERESIS_TOLERANCE := by norm_num [HYSTERESIS_TOLERANCE]
  have hst : isStable 2 (fun x => decide (x > 160 - HYSTERESIS_TOLERANCE))
      (pushHist [170] 170) = true := by
    show (decide (2 ≤ 2) && (decide ((170 : ℚ) > 160 - HYSTERESIS_TOLERANCE) &&
      (decide ((170 : ℚ) > 160 - HYSTERESIS_TOLERANCE) && true))) = true
    rw [decide_eq_true h170u]
    rfl
  have hproc : rcProcess ⟨160, 90, false, "", 2⟩ ⟨RepPhase.start, 0, [170]⟩ 170
      = ⟨RepPhase.up, 0, [170, 170]⟩ := by
    unfold rcProcess
    dsimp only
    rw [if_neg h170d, if_pos h170u, if_pos hst]
    rfl
  exact ⟨claim3_debounced_transitions.1 ⟨160, 90, false, "", 2⟩ ⟨RepPhase.start, 0, [170]⟩ 170
      (by rw [hproc]; decide),
    claim3_debounced_transitions.2 3 RepPhase.up 7⟩

/-- C7: `reset()` on the squat and push-up analyzers zeroes the rep
count, restores the stage to its initial value "start", empties the
history buffer, and puts every owned filter back in its uninitialized
state, so the next sample fed to any filter is treated as a first
sample and returned unchanged. -/
theorem claim7_reset_analyzer :
    (∀ st : SquatState, (squatReset st).reps = 0 ∧ (squatReset st).stage = "start" ∧
      (squatReset st).history = [] ∧
      ∀ p ∈ (squatReset st).smoothers,
        p.2.filter_x.state = none ∧ p.2.filter_y.state = none) ∧
    (∀ st : PushUpState, (pushupReset st).reps = 0 ∧ (pushupReset st).stage = "start" ∧
      (pushupReset st).history = [] ∧
      ∀ p ∈ (pushupReset st).smoothers,
        p.2.filter_x.state = none ∧ p.2.filter_y.state = none) ∧
    (∀ cfg : SquatConfig, (squatInit cfg).stage = "start") ∧
    (∀ cfg : PushUpConfig, (pushupInit cfg).stage = "start") ∧
    (∀ (f : OneEuroFilter) (x t : ℚ), f.state = none → (euroCall f x t).1 = x) ∧
    (∀ (ps : PointSmoother) (pnt : ℚ × ℚ) (t : ℚ),
      ps.filter_x.state = none → ps.filter_y.state = none → (psCall ps pnt t).1 = pnt) := by
  have heuro : ∀ (f : OneEuroFilter) (x t : ℚ), f.state = none → (euroCall f x t).1 = x := by
    intro f x t h
    unfold euroCall
    rw [h]
  refine ⟨?_, ?_, fun _ => rfl, fun _ => rfl, heuro, ?_⟩
  · intro st
    refine ⟨rfl, rfl, rfl, ?_⟩
    intro p hp
    rcases List.mem_map.mp hp with ⟨q, _, rfl⟩
    exact ⟨rfl, rfl⟩
  · intro st
    refine ⟨rfl, rfl, rfl, ?_⟩
    intro p hp
    rcases List.mem_map.mp hp with ⟨q, _, rfl⟩
    exact ⟨rfl, rfl⟩
  · intro ps pnt t hx hy
    unfold psCall
    dsimp only
    rw [heuro ps.filter_x pnt.1 t hx, heuro ps.filter_y pnt.2 t hy]

theorem claim7_reset_analyzer_witness :
    (squatReset (squatInit squatCfgDemo)).reps = 0 ∧
    (pushupReset (pushupInit pushupCfgDemo)).stage = "start" ∧
    (euroCall (euroInit 1 0 1) 42 7).1 = 42 ∧
    (psCall ⟨euroInit 1 0 1, euroInit 1 0 1⟩ (3, 4) 2).1 = (3, 4) :=
  ⟨(claim7_reset_analyzer.1 (squatInit squatCfgDemo)).1,
   (claim7_reset_analyzer.2.1 (pushupInit pushupCfgDemo)).2.1,
   claim7_reset_analyzer.2.2.2.2.1 (euroInit 1 0 1) 42 7 rfl,
   claim7_reset_analyzer.2.2.2.2.2 ⟨euroInit 1 0 1, euroInit 1 0 1⟩ (3, 4) 2 rfl rfl⟩

/-- C8: the first `OneEuroFilter.__call__` with sample `x` at time `t`
initializes the persisted state to `(x, 0, t)` and returns `x`
unchanged; a later call whose `dt = t - t_prev` is `≤ 0` returns the
previous smoothed value and leaves the state untouched (no division by
`dt` is performed on that path). -/
theorem claim8_one_euro_guards :
    (∀ (f : OneEuroFilter) (x t : ℚ), f.state = none →
      euroCall f x t = (x, { f with state := some (x, 0, t) })) ∧
    (∀ (f : OneEuroFilter) (x t x_prev dx_prev t_prev : ℚ),
      f.state = some (x_prev, dx_prev, t_prev) → t - t_prev ≤ 0 →
      euroCall f x t = (x_prev, f)) := by
  constructor
  · intro f x t h
    unfold euroCall
    rw [h]
  · intro f x t xp dxp tp h hdt
    unfold euroCall
    rw [h]
    dsimp only
    rw [if_pos hdt]

theorem claim8_one_euro_guards_witness :
    euroCall (euroInit 1 0 1) 10 100 = (10, ⟨1, 0, 1, some (10, 0, 100)⟩) ∧
    euroCall ⟨1, 0, 1, some (10, 0, 100)⟩ 9 100 = (10, ⟨1, 0, 1, some (10, 0, 100)⟩) :=
  ⟨claim8_one_euro_guards.1 (euroInit 1 0 1) 10 100 rfl,
   claim8_one_euro_guards.2 ⟨1, 0, 1, some (10, 0, 100)⟩ 9 100 10 0 100 rfl (by norm_num)⟩

/-- C9: `calculate_angle` returns `0.0` (and never raises) when either
vector has zero length — duplicate `a = b` or `c = b` — and otherwise
returns a value in `[0, 180]`, the cosine being clamped to `[-1, 1]`
before the arc cosine.  `sqrtQ` and `acosDeg` stand for `math.sqrt` and
`math.degrees(math.acos ·)`, constrained only by the properties those
functions actually have on the relevant domain. -/
theorem claim9_angle_guards (sqrtQ acosDeg : ℚ → ℚ)
    (hsqrt : ∀ q : ℚ, 0 ≤ q → (sqrtQ q = 0 ↔ q = 0))
    (hacos : ∀ x : ℚ, -1 ≤ x → x ≤ 1 → 0 ≤ acosDeg x ∧ acosDeg x ≤ 180) :
    (∀ a b c : ℚ × ℚ, a = b ∨ c = b → calculate_angle sqrtQ acosDeg a b c = 0) ∧
    (∀ a b c : ℚ × ℚ, a ≠ b → c ≠ b →
      0 ≤ calculate_angle sqrtQ acosDeg a b c ∧
      calculate_angle sqrtQ acosDeg a b c ≤ 180) := by
  have hzero : sqrtQ 0 = 0 := (hsqrt 0 le_rfl).mpr rfl
  have hmag : ∀ u v : ℚ × ℚ, u ≠ v → sqrtQ ((u.1 - v.1) ^ 2 + (u.2 - v.2) ^ 2) ≠ 0 := by
    intro u v huv h0
    have hnn : 0 ≤ (u.1 - v.1) ^ 2 + (u.2 - v.2) ^ 2 := by positivity
    have hsum := (hsqrt _ hnn).mp h0
    have e1 : u.1 - v.1 = 0 := by nlinarith [sq_nonneg (u.1 - v.1), sq_nonneg (u.2 - v.2)]
    have e2 : u.2 - v.2 = 0 := by nlinarith [sq_nonneg (u.1 - v.1), sq_nonneg (u.2 - v.2)]
    exact huv (Prod.ext (by linarith) (by linarith))
  constructor
  · intro a b c h
    unfold calculate_angle
    dsimp only
    rcases h with rfl | rfl
    · rw [if_pos (by simp [hzero])]
    · rw [if_pos (by simp [hzero])]
  · intro a b c hab hcb
    unfold calculate_angle
    dsimp only
    rw [if_neg (mul_ne_zero (hmag a b hab) (hmag c b hcb))]
    have hc1 : -1 ≤ max (-1)
        (min 1 (((a.1 - b.1) * (c.1 - b.1) + (a.2 - b.2) * (c.2 - b.2)) /
          (sqrtQ ((a.1 - b.1) ^ 2 + (a.2 - b.2) ^ 2) *
            sqrtQ ((c.1 - b.1) ^ 2 + (c.2 - b.2) ^ 2)))) := le_max_left _ _
    have hc2 : max (-1)
        (min 1 (((a.1 - b.1) * (c.1 - b.1) + (a.2 - b.2) * (c.2 - b.2)) /
          (sqrtQ ((a.1 - b.1) ^ 2 + (a.2 - b.2) ^ 2) *
            sqrtQ ((c.1 - b.1) ^ 2 + (c.2 - b.2) ^ 2)))) ≤ 1 :=
      max_le (by norm_num) (min_le_left _ _)
    obtain ⟨g0, g1⟩ := hacos _ hc1 hc2
    exact pyRound2_bounds _ g0 g1

theorem claim9_angle_guards_witness :
    calculate_angle demoSqrt demoAcos (0, 0) (0, 0) (1, 1) = 0 ∧
    (0 ≤ calculate_angle demoSqrt demoAcos (0, 0) (1, 1) (2, 3) ∧
      calculate_angle demoSqrt demoAcos (0, 0) (1, 1) (2, 3) ≤ 180) := by
  have hsq : ∀ q : ℚ, 0 ≤ q → (demoSqrt q = 0 ↔ q = 0) := fun _ _ => Iff.rfl
  have hac : ∀ x : ℚ, -1 ≤ x → x ≤ 1 → 0 ≤ demoAcos x ∧ demoAcos x ≤ 180 := by
    intro x _ _
    constructor <;> norm_num [demoAcos]
  exact ⟨(claim9_angle_guards demoSqrt demoAcos hsq hac).1 (0, 0) (0, 0) (1, 1) (Or.inl rfl),
    (claim9_angle_guards demoSqrt demoAcos hsq hac).2 (0, 0) (1, 1) (2, 3)
      (by intro h; exact absurd (congrArg Prod.fst h) (by norm_num))
      (by intro h; exact absurd (congrArg Prod.fst h) (by norm_num))⟩

/-- C4: when no required side passes confidence gating, `process_frame`
of the push-up and squat analyzers returns an `AnalysisResult` with
`stage="unknown"`, `angle=0.0`, `is_valid=False` and the
body-not-visible message key, leaving the rep count, the history buffer
and (for squat) the FSM exactly as they were: the counter is not
advanced and nothing is appended to history. -/
theorem claim4_body_not_visible (sqrtQ acosDeg : ℚ → ℚ) :
    (∀ (cfg : PushUpConfig) (st : PushUpState) (lm : Landmarks) (t : ℚ),
      ("left" ∈ sidesToProcess cfg.side → pushupGateLeft lm = false) →
      ("right" ∈ sidesToProcess cfg.side → pushupGateRight lm = false) →
      (pushupProcessFrame sqrtQ acosDeg cfg st lm t).1
          = ⟨st.reps, "unknown", "err_body_not_visible", 0, false⟩ ∧
      (pushupProcessFrame sqrtQ acosDeg cfg st lm t).2.reps = st.reps ∧
      (pushupProcessFrame sqrtQ acosDeg cfg st lm t).2.history = st.history ∧
      (pushupProcessFrame sqrtQ acosDeg cfg st lm t).2.stage = st.stage) ∧
    (∀ (cfg : SquatConfig) (st : SquatState) (lm : Landmarks) (t : ℚ),
      (cfg.side = "left" ∨ cfg.side = "right" ∨ cfg.side = "both") →
      ("left" ∈ sidesToProcess cfg.side → squatGate lm 11 13 15 = false) →
      ("right" ∈ sidesToProcess cfg.side → squatGate lm 12 14 16 = false) →
      (squatProcessFrame sqrtQ acosDeg cfg st lm t).1
          = ⟨st.reps, "unknown", "err_body_not_visible", 0, false⟩ ∧
      (squatProcessFrame sqrtQ acosDeg cfg st lm t).2.reps = st.reps ∧
      (squatProcessFrame sqrtQ acosDeg cfg st lm t).2.history = st.history ∧
      (squatProcessFrame sqrtQ acosDeg cfg st lm t).2.fsm = st.fsm ∧
      (squatProcessFrame sqrtQ acosDeg cfg st lm t).2.stage = st.stage) := by
  constructor
  · intro cfg st lm t hL hR
    have hdl : ¬("left" ∈ sidesToProcess cfg.side ∧ pushupGateLeft lm = true) := by
      rintro ⟨hm, hg⟩
      rw [hL hm] at hg
      exact Bool.false_ne_true hg
    have hdr : ¬("right" ∈ sidesToProcess cfg.side ∧ pushupGateRight lm = true) := by
      rintro ⟨hm, hg⟩
      rw [hR hm] at hg
      exact Bool.false_ne_true hg
    unfold pushupProcessFrame
    dsimp only
    rw [if_neg hdl, if_neg hdr]
    exact ⟨rfl, rfl, rfl, rfl⟩
  · intro cfg st lm t hside hL hR
    have hdl : ¬("left" ∈ sidesToProcess cfg.side ∧ squatGate lm 11 13 15 = true) := by
      rintro ⟨hm, hg⟩
      rw [hL hm] at hg
      exact Bool.false_ne_true hg
    have hdr : ¬("right" ∈ sidesToProcess cfg.side ∧ squatGate lm 12 14 16 = true) := by
      rintro ⟨hm, hg⟩
      rw [hR hm] at hg
      exact Bool.false_ne_true hg
    have hlen : (([] : List ℚ) ++ []).length < (sidesToProcess cfg.side).length := by
      rcases hside with h | h | h <;> rw [h] <;> decide
    unfold squatProcessFrame
    dsimp only
    rw [if_neg hdl, if_neg hdr, if_pos hlen]
    exact ⟨rfl, rfl, rfl, rfl, rfl⟩

/-- C5: with both sides passing confidence gating, the push-up analyzer
takes the higher-confidence side's elbow and body angles outright when
the average confidences differ by more than the 0.1 margin, and the
arithmetic mean of the two sides' angles otherwise; with exactly one
side passing gating, it uses that side's angles.  The fused elbow angle
is the reported `angle`, and the fused body angle is recorded in the
appended history entry. -/
theorem claim5_side_fusion (sqrtQ acosDeg : ℚ → ℚ) (cfg : PushUpConfig) (st : PushUpState)
    (lm : Landmarks) (t : ℚ) (sl : Landmarks)
    (hside : cfg.side = "both")
    (hsl : (smoothLandmarks st.smoothers lm t).1 = sl) :
    (pushupGateLeft lm = true → pushupGateRight lm = true →
      |confSideLeft lm - confSideRight lm| > 0.1 →
      ((pushupProcessFrame sqrtQ acosDeg cfg st lm t).1.angle
          = (if confSideLeft lm > confSideRight lm then angleElbowL sqrtQ acosDeg sl
             else angleElbowR sqrtQ acosDeg sl) ∧
       ((pushupProcessFrame sqrtQ acosDeg cfg st lm t).2.history.head?.map
          PushUpHistoryEntry.body_angle)
          = some (if confSideLeft lm > confSideRight lm then angleBodyL sqrtQ acosDeg sl
             else angleBodyR sqrtQ acosDeg sl))) ∧
    (pushupGateLeft lm = true → pushupGateRight lm = true →
      |confSideLeft lm - confSideRight lm| ≤ 0.1 →
      ((pushupProcessFrame sqrtQ acosDeg cfg st lm t).1.angle
          = (angleElbowL sqrtQ acosDeg sl + angleElbowR sqrtQ acosDeg sl) / 2 ∧
       ((pushupProcessFrame sqrtQ acosDeg cfg st lm t).2.history.head?.map
          PushUpHistoryEntry.body_angle)
          = some ((angleBodyL sqrtQ acosDeg sl + angleBodyR sqrtQ acosDeg sl) / 2))) ∧
    (pushupGateLeft lm = true → pushupGateRight lm = false →
      ((pushupProcessFrame sqrtQ acosDeg cfg st lm t).1.angle = angleElbowL sqrtQ acosDeg sl ∧
       ((pushupProcessFrame sqrtQ acosDeg cfg st lm t).2.history.head?.map
          PushUpHistoryEntry.body_angle) = some (angleBodyL sqrtQ acosDeg sl))) ∧
    (pushupGateLeft lm = false → pushupGateRight lm = true →
      ((pushupProcessFrame sqrtQ acosDeg cfg st lm t).1.angle = angleElbowR sqrtQ acosDeg sl ∧
       ((pushupProcessFrame sqrtQ acosDeg cfg st lm t).2.history.head?.map
          PushUpHistoryEntry.body_angle) = some (angleBodyR sqrtQ acosDeg sl))) := by
  subst hsl
  have hmemL : "left" ∈ sidesToProcess "both" := by decide
  have hmemR : "right" ∈ sidesToProcess "both" := by decide
  refine ⟨?_, ?_, ?_, ?_⟩
  · intro hL hR hdiff
    unfold pushupProcessFrame
    dsimp only
    rw [hside, if_pos ⟨hmemL, hL⟩, if_pos ⟨hmemR, hR⟩]
    dsimp only
    rw [if_pos hdiff]
    by_cases hcmp : confSideLeft lm > confSideRight lm
    · rw [if_pos hcmp, if_pos hcmp, if_pos hcmp]
      exact ⟨rfl, rfl⟩
    · rw [if_neg hcmp, if_neg hcmp, if_neg hcmp]
      exact ⟨rfl, rfl⟩
  · intro hL hR hdiff
    unfold pushupProcessFrame
    dsimp only
    rw [hside, if_pos ⟨hmemL, hL⟩, if_pos ⟨hmemR, hR⟩]
    dsimp only
    rw [if_neg (not_lt.mpr hdiff)]
    exact ⟨rfl, rfl⟩
  · intro hL hR
    have hdr : ¬("right" ∈ sidesToProcess "both" ∧ pushupGateRight lm = true) := by
      rintro ⟨-, hg⟩
      rw [hR] at hg
      exact Bool.false_ne_true hg
    unfold pushupProcessFrame
    dsimp only
    rw [hside, if_pos ⟨hmemL, hL⟩, if_neg hdr]
    exact ⟨rfl, rfl⟩
  · intro hL hR
    have hdl : ¬("left" ∈ sidesToProcess "both" ∧ pushupGateLeft lm = true) := by
      rintro ⟨-, hg⟩
      rw [hL] at hg
      exact Bool.false_ne_true hg
    unfold pushupProcessFrame
    dsimp only
    rw [hside, if_neg hdl, if_pos ⟨hmemR, hR⟩]
    exact ⟨rfl, rfl⟩

theorem claim5_side_fusion_witness :
    ((pushupProcessFrame demoSqrt demoAcos pushupCfgDemo (pushupInit pushupCfgDemo)
        lmLeftHigh 1).1.angle
        = (if confSideLeft lmLeftHigh > confSideRight lmLeftHigh
           then angleElbowL demoSqrt demoAcos
             (smoothLandmarks (pushupInit pushupCfgDemo).smoothers lmLeftHigh 1).1
           else angleElbowR demoSqrt demoAcos
             (smoothLandmarks (pushupInit pushupCfgDemo).smoothers lmLeftHigh 1).1) ∧
     ((pushupProcessFrame demoSqrt demoAcos pushupCfgDemo (pushupInit pushupCfgDemo)
        lmLeftHigh 1).2.history.head?.map PushUpHistoryEntry.body_angle)
        = some (if confSideLeft lmLeftHigh > confSideRight lmLeftHigh
           then angleBodyL demoSqrt demoAcos
             (smoothLandmarks (pushupInit pushupCfgDemo).smoothers lmLeftHigh 1).1
           else angleBodyR demoSqrt demoAcos
             (smoothLandmarks (pushupInit pushupCfgDemo).smoothers lmLeftHigh 1).1)) ∧
    ((pushupProcessFrame demoSqrt demoAcos pushupCfgDemo (pushupInit pushupCfgDemo)
        lmAllHigh 1).1.angle
        = (angleElbowL demoSqrt demoAcos
             (smoothLandmarks (pushupInit pushupCfgDemo).smoothers lmAllHigh 1).1
           + angleElbowR demoSqrt demoAcos
             (smoothLandmarks (pushupInit pushupCfgDemo).smoothers lmAllHigh 1).1) / 2 ∧
     ((pushupProcessFrame demoSqrt demoAcos pushupCfgDemo (pushupInit pushupCfgDemo)
        lmAllHigh 1).2.history.head?.map PushUpHistoryEntry.body_angle)
        = some ((angleBodyL demoSqrt demoAcos
             (smoothLandmarks (pushupInit pushupCfgDemo).smoothers lmAllHigh 1).1
           + angleBodyR demoSqrt demoAcos
             (smoothLandmarks (pushupInit pushupCfgDemo).smoothers lmAllHigh 1).1) / 2)) := by
  have hodd : ∀ i : Fin 17, i.val % 2 = 1 → (lmLeftHigh i).conf = 0.9 := by
    intro i h
    simp [lmLeftHigh, h]
  have heven : ∀ i : Fin 17, ¬(i.val % 2 = 1) → (lmLeftHigh i).conf = 0.6 := by
    intro i h
    simp [lmLeftHigh, h]
  have hgl1 : pushupGateLeft lmLeftHigh = true := by
    unfold pushupGateLeft
    rw [List.all_eq_true]
    intro i hi
    fin_cases hi <;>
      (apply decide_eq_true
       rw [hodd _ (by decide)]
       norm_num [CONFIDENCE_THRESHOLD])
  have hgr1 : pushupGateRight lmLeftHigh = true := by
    unfold pushupGateRight
    rw [List.all_eq_true]
    intro i hi
    fin_cases hi <;>
      (apply decide_eq_true
       rw [heven _ (by decide)]
       norm_num [CONFIDENCE_THRESHOLD])
  have hgl2 : pushupGateLeft lmAllHigh = true := by
    unfold pushupGateLeft
    rw [List.all_eq_true]
    intro i hi
    fin_cases hi <;> (apply decide_eq_true; norm_num [lmAllHigh, CONFIDENCE_THRESHOLD])
  have hgr2 : pushupGateRight lmAllHigh = true := by
    unfold pushupGateRight
    rw [List.all_eq_true]
    intro i hi
    fin_cases hi <;> (apply decide_eq_true; norm_num [lmAllHigh, CONFIDENCE_THRESHOLD])
  have hcl1 : confSideLeft lmLeftHigh = 9/10 := by
    norm_num [confSideLeft, hodd 5 (by decide), hodd 7 (by decide), hodd 9 (by decide),
      hodd 11 (by decide), hodd 15 (by decide)]
  have hcr1 : confSideRight lmLeftHigh = 3/5 := by
    norm_num [confSideRight, heven 6 (by decide), heven 8 (by decide), heven 10 (by decide),
      heven 12 (by decide), heven 16 (by decide)]
  have hd1 : |confSideLeft lmLeftHigh - confSideRight lmLeftHigh| > 0.1 := by
    rw [hcl1, hcr1, show (9/10 : ℚ) - 3/5 = 3/10 by norm_num,
      abs_of_pos (by norm_num : (0 : ℚ) < 3/10)]
    norm_num
  have hcl2 : confSideLeft lmAllHigh = 9/10 := by norm_num [confSideLeft, lmAllHigh]
  have hcr2 : confSideRight lmAllHigh = 9/10 := by norm_num [confSideRight, lmAllHigh]
  have hd2 : |confSideLeft lmAllHigh - confSideRight lmAllHigh| ≤ 0.1 := by
    rw [hcl2, hcr2, sub_self, abs_zero]
    norm_num
  exact ⟨(claim5_side_fusion demoSqrt demoAcos pushupCfgDemo (pushupInit pushupCfgDemo)
      lmLeftHigh 1 _ rfl rfl).1 hgl1 hgr1 hd1,
    (claim5_side_fusion demoSqrt demoAcos pushupCfgDemo (pushupInit pushupCfgDemo)
      lmAllHigh 1 _ rfl rfl).2.1 hgl2 hgr2 hd2⟩

theorem claim4_body_not_visible_witness :
    ((pushupProcessFrame demoSqrt demoAcos pushupCfgDemo (pushupInit pushupCfgDemo) lmAllLow 1).1
        = ⟨(pushupInit pushupCfgDemo).reps, "unknown", "err_body_not_visible", 0, false⟩ ∧
     (pushupProcessFrame demoSqrt demoAcos pushupCfgDemo (pushupInit pushupCfgDemo)
        lmAllLow 1).2.reps = (pushupInit pushupCfgDemo).reps ∧
     (pushupProcessFrame demoSqrt demoAcos pushupCfgDemo (pushupInit pushupCfgDemo)
        lmAllLow 1).2.history = (pushupInit pushupCfgDemo).history ∧
     (pushupProcessFrame demoSqrt demoAcos pushupCfgDemo (pushupInit pushupCfgDemo)
        lmAllLow 1).2.stage = (pushupInit pushupCfgDemo).stage) ∧
    ((squatProcessFrame demoSqrt demoAcos squatCfgDemo (squatInit squatCfgDemo) lmAllLow 1).1
        = ⟨(squatInit squatCfgDemo).reps, "unknown", "err_body_not_visible", 0, false⟩ ∧
     (squatProcessFrame demoSqrt demoAcos squatCfgDemo (squatInit squatCfgDemo)
        lmAllLow 1).2.reps = (squatInit squatCfgDemo).reps ∧
     (squatProcessFrame demoSqrt demoAcos squatCfgDemo (squatInit squatCfgDemo)
        lmAllLow 1).2.history = (squatInit squatCfgDemo).history ∧
     (squatProcessFrame demoSqrt demoAcos squatCfgDemo (squatInit squatCfgDemo)
        lmAllLow 1).2.fsm = (squatInit squatCfgDemo).fsm ∧
     (squatProcessFrame demoSqrt demoAcos squatCfgDemo (squatInit squatCfgDemo)
        lmAllLow 1).2.stage = (squatInit squatCfgDemo).stage) := by
  have hconf : ¬((0.2 : ℚ) ≥ CONFIDENCE_THRESHOLD) := by norm_num [CONFIDENCE_THRESHOLD]
  have hgl : pushupGateLeft lmAllLow = false := by
    show (decide ((0.2 : ℚ) ≥ CONFIDENCE_THRESHOLD) && _) = false
    rw [decide_eq_false hconf]
    exact Bool.false_and _
  have hgr : pushupGateRight lmAllLow = false := by
    show (decide ((0.2 : ℚ) ≥ CONFIDENCE_THRESHOLD) && _) = false
    rw [decide_eq_false hconf]
    exact Bool.false_and _
  have hsq : ∀ i1 i2 i3 : Fin 17, squatGate lmAllLow i1 i2 i3 = false := by
    intro i1 i2 i3
    apply decide_eq_false
    simp only [lmAllLow, min_self]
    exact hconf
  exact ⟨(claim4_body_not_visible demoSqrt demoAcos).1 pushupCfgDemo (pushupInit pushupCfgDemo)
      lmAllLow 1 (fun _ => hgl) (fun _ => hgr),
    (claim4_body_not_visible demoSqrt demoAcos).2 squatCfgDemo (squatInit squatCfgDemo)
      lmAllLow 1 (Or.inr (Or.inl rfl)) (fun _ => hsq 11 13 15) (fun _ => hsq 12 14 16)⟩

/-- C6: for every priority-sorted rule set (the invariant `add_rule`
maintains) and every context, `check` returns the message key of a
triggered rule of maximal priority together with `is_valid=False`
whenever some rule triggers, and the default perfect-form key with
`is_valid=True` when no rule triggers. -/
theorem claim6_feedback_priority {α : Type} (rules : List (ℤ × (α → Bool) × String)) (ctx : α)
    (hsorted : rules.Pairwise (fun r1 r2 => r1.1 ≤ r2.1)) :
    ((∀ r ∈ rules, r.2.1 ctx = false) → check rules ctx = ("feedback_perfect", true)) ∧
    ((∃ r ∈ rules, r.2.1 ctx = true) →
      ∃ r ∈ rules, r.2.1 ctx = true ∧ check rules ctx = (r.2.2, false) ∧
        ∀ r2 ∈ rules, r2.2.1 ctx = true → r2.1 ≤ r.1) := by
  constructor
  · intro h
    exact checkScan_none _ ctx (fun r hr => h r (List.mem_reverse.mp hr))
  · intro hex
    have hdesc : rules.reverse.Pairwise (fun r1 r2 => r2.1 ≤ r1.1) := by
      rw [List.pairwise_reverse]
      exact hsorted
    obtain ⟨r, hr, htr, hscan, hmax⟩ := checkScan_triggered ctx rules.reverse hdesc
      (by
        rcases hex with ⟨r, hr, htr⟩
        exact ⟨r, List.mem_reverse.mpr hr, htr⟩)
    exact ⟨r, List.mem_reverse.mp hr, htr, hscan,
      fun r2 hr2 ht2 => hmax r2 (List.mem_reverse.mpr hr2) ht2⟩

theorem claim6_feedback_priority_witness :
    check demoRules 0 = ("key_critical", false) ∧
    (∃ r ∈ demoRules, r.2.1 0 = true ∧ check demoRules 0 = (r.2.2, false) ∧
      ∀ r2 ∈ demoRules, r2.2.1 0 = true → r2.1 ≤ r.1) := by
  have hd : demoRules = [(5, fun _ => true, "key_minor"), (10, fun _ => true, "key_critical")] :=
    rfl
  have hsorted : demoRules.Pairwise (fun r1 r2 => r1.1 ≤ r2.1) := by
    rw [hd]
    refine List.pairwise_cons.mpr ⟨?_, List.pairwise_singleton _ _⟩
    intro b hb
    rcases List.mem_singleton.mp hb with rfl
    decide
  refine ⟨rfl, (claim6_feedback_priority demoRules 0 hsorted).2 ?_⟩
  refine ⟨(10, fun _ => true, "key_critical"), ?_, rfl⟩
  rw [hd]
  exact List.mem_cons_of_mem _ (List.mem_singleton.mpr rfl)

/-- C10: a `RepetitionCounter` constructed with a `start_stage` outside
the four enum values (as `Squat.__init__` does with "squat_up") begins
in UNKNOWN; from UNKNOWN a stable UP plateau changes neither the phase
nor the rep count; UNKNOWN is left only through a stable DOWN
transition; and after that DOWN the usual DOWN→UP counting applies. -/
theorem claim10_unknown_start_stage :
    (∀ stg : String, stg ≠ "start" → stg ≠ "up" → stg ≠ "down" → stg ≠ "unknown" →
      parse_phase stg = RepPhase.unknown) ∧
    (∀ cfg : SquatConfig, (squatInit cfg).fsm.phase = RepPhase.unknown) ∧
    (∀ (u d a : ℚ) (sf n r : ℕ) (h0 : List ℚ),
      1 ≤ sf → sf ≤ 5 → sf ≤ n →
      ¬(a < d + HYSTERESIS_TOLERANCE) → a > u - HYSTERESIS_TOLERANCE →
      (rcRun ⟨u, d, false, "", sf⟩ ⟨RepPhase.unknown, r, h0⟩ (List.replicate n a)).phase
          = RepPhase.unknown ∧
      (rcRun ⟨u, d, false, "", sf⟩ ⟨RepPhase.unknown, r, h0⟩ (List.replicate n a)).reps = r) ∧
    (∀ (c : RCConfig) (s : RCState) (a : ℚ),
      s.phase = RepPhase.unknown → (rcProcess c s a).phase ≠ RepPhase.unknown →
      (rcProcess c s a).phase = RepPhase.down ∧
      isStable c.stability_frames (qualDown c) (pushHist s.history a) = true) ∧
    (∀ (u d : ℚ) (sf n1 n2 n3 : ℕ),
      1 ≤ sf → sf ≤ 5 → sf ≤ n1 → sf ≤ n2 → sf ≤ n3 →
      ¬((170 : ℚ) < d + HYSTERESIS_TOLERANCE) → (170 : ℚ) > u - HYSTERESIS_TOLERANCE →
      (80 : ℚ) < d + HYSTERESIS_TOLERANCE →
      (rcRun ⟨u, d, false, "", sf⟩ ⟨RepPhase.unknown, 0, []⟩
        (List.replicate n1 170 ++ List.replicate n2 80 ++ List.replicate n3 170)).phase
          = RepPhase.up ∧
      (rcRun ⟨u, d, false, "", sf⟩ ⟨RepPhase.unknown, 0, []⟩
        (List.replicate n1 170 ++ List.replicate n2 80 ++ List.replicate n3 170)).reps = 1) := by
  refine ⟨?_, ?_, ?_, ?_, ?_⟩
  · intro stg h1 h2 h3 h4
    unfold parse_phase
    rw [if_neg h1, if_neg h2, if_neg h3, if_neg h4]
  · intro cfg
    rfl
  · intro u d a sf n r h0 hsf1 hsf5 hn hd hu
    have hstepU : StepTau ⟨u, d, false, "", sf⟩ a tauUp
        (fun x => decide (x > u - HYSTERESIS_TOLERANCE)) :=
      stepTau_up rfl hd hu
    have h := (rcRun_const_tau hstepU tauUp_idem (decide_eq_true hu) hsf5 hn
      (hsf1.trans hn) ⟨RepPhase.unknown, r, h0⟩).1
    exact ⟨congrArg Prod.fst h, congrArg Prod.snd h⟩
  · intro c s a hp hne
    rcases rcProcess_phase_change c s a (by rw [hp]; exact hne) with h | h
    · exact ⟨h.1, h.2⟩
    · rcases h.2.2 with hd | hd <;> rw [hp] at hd <;> exact absurd hd (by decide)
  · intro u d sf n1 n2 n3 hsf1 hsf5 hn1 hn2 hn3 hd170 hu170 hd80
    have hstepU : StepTau ⟨u, d, false, "", sf⟩ 170 tauUp
        (fun x => decide (x > u - HYSTERESIS_TOLERANCE)) :=
      stepTau_up rfl hd170 hu170
    have hstepD : StepTau ⟨u, d, false, "", sf⟩ 80 tauDown
        (fun x => decide (x < d + HYSTERESIS_TOLERANCE)) :=
      stepTau_down rfl hd80
    have h1 := (rcRun_const_tau hstepU tauUp_idem (decide_eq_true hu170) hsf5 hn1
      (hsf1.trans hn1) ⟨RepPhase.unknown, 0, []⟩).1
    have h2 := (rcRun_const_tau hstepD tauDown_idem (decide_eq_true hd80) hsf5 hn2
      (hsf1.trans hn2)
      (rcRun ⟨u, d, false, "", sf⟩ ⟨RepPhase.unknown, 0, []⟩ (List.replicate n1 170))).1
    have h3 := (rcRun_const_tau hstepU tauUp_idem (decide_eq_true hu170) hsf5 hn3
      (hsf1.trans hn3)
      (rcRun ⟨u, d, false, "", sf⟩
        (rcRun ⟨u, d, false, "", sf⟩ ⟨RepPhase.unknown, 0, []⟩ (List.replicate n1 170))
        (List.replicate n2 80))).1
    have hsplit : rcRun ⟨u, d, false, "", sf⟩ ⟨RepPhase.unknown, 0, []⟩
        (List.replicate n1 170 ++ List.replicate n2 80 ++ List.replicate n3 170)
        = rcRun ⟨u, d, false, "", sf⟩
            (rcRun ⟨u, d, false, "", sf⟩
              (rcRun ⟨u, d, false, "", sf⟩ ⟨RepPhase.unknown, 0, []⟩ (List.replicate n1 170))
              (List.replicate n2 80))
            (List.replicate n3 170) := by
      rw [rcRun_append, rcRun_append]
    rw [h1] at h2
    rw [h2] at h3
    have p3 : ((rcRun ⟨u, d, false, "", sf⟩ ⟨RepPhase.unknown, 0, []⟩
        (List.replicate n1 170 ++ List.replicate n2 80 ++ List.replicate n3 170)).phase,
        (rcRun ⟨u, d, false, "", sf⟩ ⟨RepPhase.unknown, 0, []⟩
        (List.replicate n1 170 ++ List.replicate n2 80 ++ List.replicate n3 170)).reps)
        = (RepPhase.up, 1) := by
      rw [hsplit]
      exact h3
    exact ⟨congrArg Prod.fst p3, congrArg Prod.snd p3⟩

theorem claim10_unknown_start_stage_witness :
    parse_phase "squat_up" = RepPhase.unknown ∧
    (squatInit squatCfgDemo).fsm.phase = RepPhase.unknown ∧
    ((rcRun ⟨160, 90, false, "", 2⟩ ⟨RepPhase.unknown, 5, []⟩ (List.replicate 2 170)).phase
        = RepPhase.unknown ∧
     (rcRun ⟨160, 90, false, "", 2⟩ ⟨RepPhase.unknown, 5, []⟩ (List.replicate 2 170)).reps = 5) ∧
    ((rcProcess ⟨160, 90, false, "", 2⟩ ⟨RepPhase.unknown, 0, [80]⟩ 80).phase = RepPhase.down ∧
     isStable 2 (qualDown ⟨160, 90, false, "", 2⟩) (pushHist [80] 80) = true) ∧
    ((rcRun ⟨160, 90, false, "", 2⟩ ⟨RepPhase.unknown, 0, []⟩
        (List.replicate 2 170 ++ List.replicate 2 80 ++ List.replicate 2 170)).phase
        = RepPhase.up ∧
     (rcRun ⟨160, 90, false, "", 2⟩ ⟨RepPhase.unknown, 0, []⟩
        (List.replicate 2 170 ++ List.replicate 2 80 ++ List.replicate 2 170)).reps = 1) := by
  have h80d : (80 : ℚ) < 90 + HYSTERESIS_TOLERANCE := by norm_num [HYSTERESIS_TOLERANCE]
  have hst : isStable 2 (fun x => decide (x < 90 + HYSTERESIS_TOLERANCE))
      (pushHist [80] 80) = true := by
    show (decide (2 ≤ 2) && (decide ((80 : ℚ) < 90 + HYSTERESIS_TOLERANCE) &&
      (decide ((80 : ℚ) < 90 + HYSTERESIS_TOLERANCE) && true))) = true
    rw [decide_eq_true h80d]
    rfl
  have hproc : rcProcess ⟨160, 90, false, "", 2⟩ ⟨RepPhase.unknown, 0, [80]⟩ 80
      = ⟨RepPhase.down, 0, [80, 80]⟩ := by
    unfold rcProcess
    dsimp only
    rw [if_pos h80d, if_pos hst]
    rfl
  exact
    ⟨claim10_unknown_start_stage.1 "squat_up" (by decide) (by decide) (by decide) (by decide),
     claim10_unknown_start_stage.2.1 squatCfgDemo,
     claim10_unknown_start_stage.2.2.1 160 90 170 2 2 5 [] (by decide) (by decide) (by decide)
       (by norm_num [HYSTERESIS_TOLERANCE]) (by norm_num [HYSTERESIS_TOLERANCE]),
     claim10_unknown_start_stage.2.2.2.1 ⟨160, 90, false, "", 2⟩ ⟨RepPhase.unknown, 0, [80]⟩ 80
       rfl (by rw [hproc]; decide),
     claim10_unknown_start_stage.2.2.2.2 160 90 2 2 2 2 (by decide) (by decide) (by decide)
       (by decide) (by decide) (by norm_num [HYSTERESIS_TOLERANCE])
       (by norm_num [HYSTERESIS_TOLERANCE]) (by norm_num [HYSTERESIS_TOLERANCE])⟩

end Spotter
